import Mathlib

/-!
# Verification development for `seasnake/generator.py`

A shallow embedding of the C++-to-Python translator in
`src/seasnake/generator.py`.  The mutable Python object graph (the scope
model of `Declaration`/`Context` subclasses) is embedded as an explicit
heap of objects addressed by allocation index; Python exceptions are
embedded as `Except Err`; the recursive `Generator.handle` dispatcher is
embedded as a structurally recursive interpreter over the input syntax
tree.  The `CodeWriter` emission layer is embedded as a state record whose
`out` field collects the chunks passed to `out.write(...)` in order.

Scoping notes (all deliberate, none load-bearing for the claims):
* unsupported cursor kinds (templates, control flow, Objective-C, ...) are
  collapsed into the single kind `unsupported`, which the dispatcher skips
  exactly as the source's `getattr` failure path does;
* the file filter (`node.spelling in self.filenames or ...`) is abstracted
  into a per-node boolean `inFile`;
* destructors, methods, enums, structs and functions are outside the
  fragment exercised by the claims and are not given heap variants.
-/

set_option autoImplicit false

namespace Seasnake

/-- Heap addresses for model objects (Python object identity). -/
abbrev ObjId := Nat

/-- Python exceptions raised (or propagated) by the generator code. -/
inductive Err where
  /-- `KeyError`, raised by `Context.__getitem__` at the root of the chain. -/
  | keyError (name : String)
  /-- `AttributeError`: attribute access on an object lacking it (`None.output`,
  `OrderedDict.append`, reading `self.true_result` when only `true_value` was set, ...). -/
  | attributeError (name : String)
  /-- `TypeError`: e.g. `None[...]` or iterating over `None`. -/
  | typeError (msg : String)
  /-- `NameError`: reference to an undefined variable (`children` in `handle_member_ref`). -/
  | nameError (name : String)
  /-- `IndexError`: e.g. `list(...)[-1]` on an empty list. -/
  | indexError
  /-- `ValueError`: e.g. `int(tok)` on a non-numeric token. -/
  | valueError
  /-- `StopIteration` escaping a `next(...)` with no `try` around it. -/
  | stopIteration
  /-- `raise Exception(msg)` in the builders. -/
  | exception (msg : String)
  /-- Artificial: the interpreter's recursion budget ran out.  Never reached
  when the budget is at least the input tree's height. -/
  | fuelExhausted
deriving DecidableEq, Repr

/-- The subset of `clang.cindex.TypeKind` the embedded handlers inspect. -/
inductive TypeKind where
  | record | pointer | lvalueReference | other
deriving DecidableEq, Repr

/-- The cursor kinds with embedded handlers; every kind without a
`handle_<kind>` method in the source is collapsed into `unsupported`. -/
inductive CursorKind where
  | translationUnit
  | classDecl
  | constructor
  | parmDecl
  | compoundStmt
  | typeRef
  | returnStmt
  | integerLiteral
  | stringLiteral
  | declRefExpr
  | varDecl
  | fieldDecl
  | memberRef
  | memberRefExpr
  | binaryOperator
  | conditionalOperator
  | cxxThisExpr
  | declStmt
  | unsupported
deriving DecidableEq, Repr

/-- An input syntax-tree node (the interface of `clang.cindex.Cursor` used by
the generator): kind tag, spelling, declared/result type kinds, the file
filter verdict, ordered children, and the raw token spellings. -/
inductive Node where
  | mk (kind : CursorKind) (spelling : String) (typeKind : TypeKind)
       (resultTypeKind : TypeKind) (inFile : Bool)
       (children : List Node) (tokens : List String)

def Node.kind : Node → CursorKind
  | .mk k _ _ _ _ _ _ => k

def Node.spelling : Node → String
  | .mk _ s _ _ _ _ _ => s

def Node.typeKind : Node → TypeKind
  | .mk _ _ t _ _ _ _ => t

def Node.resultTypeKind : Node → TypeKind
  | .mk _ _ _ r _ _ _ => r

def Node.inFile : Node → Bool
  | .mk _ _ _ _ f _ _ => f

def Node.children : Node → List Node
  | .mk _ _ _ _ _ cs _ => cs

def Node.tokens : Node → List String
  | .mk _ _ _ _ _ _ ts => ts

/-- Values held by `Literal` model objects (`int(...)`, `float` is out of the
modelled fragment, raw token strings for string/char literals). -/
inductive Lit where
  | int (value : Int)
  | str (value : String)
deriving DecidableEq, Repr

/-- Immutable expression model objects.  Fields that the source assigns
dynamically (`binop.lvalue = ...`, `condop.true_value = ...`) are `Option`s:
`none` models both Python `None` and a never-assigned attribute.
`conditionalOperation` carries all four attribute slots that the source
mentions: the builder `handle_conditional_operator` assigns `true_value`,
`condition` and `false_result`, while `ConditionalOperation.output` reads
`true_result`, `condition` and `false_result`. -/
inductive Expr where
  | reference (ref : String)
  | selfReference
  | attributeReference (inst : Option Expr) (attr : String)
  | literal (value : Lit)
  | binaryOperation (lvalue : Option Expr) (op : String) (rvalue : Option Expr)
  | conditionalOperation (true_value : Option Expr) (true_result : Option Expr)
      (condition : Option Expr) (false_result : Option Expr)

/-- Statement model objects.  `Return.value` starts as `None` and is assigned
the child handler's result; only expression results occur in the modelled
fragment, so the slot is an `Option Expr`. -/
inductive Stmt where
  | ret (value : Option Expr)

/-- The value a handler returns to `Generator.handle`'s caller: Python `None`,
a heap declaration, an immutable expression, or a statement object. -/
inductive HVal where
  | none_
  | decl (i : ObjId)
  | expr (e : Expr)
  | stmt (s : Stmt)

/-- Coerce a handler result into an expression slot; in the modelled fragment
only `None` and expression objects flow into such slots. -/
def HVal.exprOf : HVal → Option Expr
  | .expr e => some e
  | _ => none

/-- Python truthiness of a handler result: `None` is falsy, every model
object is truthy. -/
def HVal.truthy : HVal → Bool
  | .none_ => false
  | _ => true

/-- The `context` argument threaded through the handlers: Python `None`, a
heap declaration (`Module`/`Class`/`Constructor`/...), or an immutable
expression model object (e.g. `handle_binary_operator` passes the fresh
`BinaryOperation` as context to its children). -/
inductive Ctxt where
  | pynone
  | obj (i : ObjId)
  | exprObj
deriving DecidableEq, Repr

/-- `OrderedDict` lookup: first (unique) entry with the given key. -/
def odLookup {κ ν : Type} [DecidableEq κ] : List (κ × ν) → κ → Option ν
  | [], _ => none
  | (k', v) :: rest, k => if k' = k then some v else odLookup rest k

/-- `OrderedDict` assignment `d[k] = v`: overwrite in place if the key is
present (keeping its position), else append. -/
def odSet {κ ν : Type} [DecidableEq κ] : List (κ × ν) → κ → ν → List (κ × ν)
  | [], k, v => [(k, v)]
  | (k', v') :: rest, k, v =>
    if k' = k then (k, v) :: rest else (k', v') :: odSet rest k v

/-- `Module`: root-level `Context`.  `Module.__init__` deliberately does not
pass its name to `Declaration.__init__`, so the name is never registered in
the parent's symbol table.  (`submodules` is omitted: `add_submodule` is
unreachable in the modelled fragment.) -/
structure ModuleObj where
  parent : Ctxt
  name : String
  names : List (String × ObjId)
  declarations : List (Option String × ObjId)
  imports : List String
deriving DecidableEq, Repr

/-- `Class`: superclass name, at most one constructor, ordered attributes.
(`destructor`, `methods` and the ill-typed `classes` field are outside the
modelled fragment.)  The field `ctor` embeds the source's `self.constructor`. -/
structure ClassObj where
  parent : Ctxt
  name : String
  names : List (String × ObjId)
  superclass : Option String
  ctor : Option ObjId
  attributes : List (String × ObjId)
deriving DecidableEq, Repr

/-- `Constructor`: unnamed `Context` whose `statements` slot distinguishes
`None` (declared, no body yet) from a statement list. -/
structure CtorObj where
  parent : Ctxt
  names : List (String × ObjId)
  parameters : List ObjId
  statements : Option (List HVal)

/-- `Parameter` declaration (ctype/default are always `None` in the source). -/
structure ParamObj where
  parent : Ctxt
  name : String
deriving DecidableEq, Repr

/-- `Attribute` declaration: member variable with optional initializer. -/
structure AttrObj where
  parent : Ctxt
  name : String
  value : HVal

/-- `Variable` declaration with optional initializer. -/
structure VarObj where
  parent : Ctxt
  name : String
  value : HVal

/-- A heap cell: one mutable model object. -/
inductive Obj where
  | module (m : ModuleObj)
  | klass (c : ClassObj)
  | ctor (c : CtorObj)
  | param (p : ParamObj)
  | attr (a : AttrObj)
  | var (v : VarObj)

/-- The object heap; an `ObjId` is an index into it. -/
abbrev Heap := List Obj

/-- Allocate a fresh object, returning its id. -/
def halloc (h : Heap) (o : Obj) : Heap × ObjId :=
  (h ++ [o], h.length)

/-- The `names` table of a `Context`; `none` for declarations that are not
contexts (reading `.names` on those raises `AttributeError`). -/
def Obj.names? : Obj → Option (List (String × ObjId))
  | .module m => some m.names
  | .klass c => some c.names
  | .ctor c => some c.names
  | _ => none

/-- Replace the `names` table (used by symbol registration). -/
def Obj.setNames : Obj → List (String × ObjId) → Obj
  | .module m, t => .module { m with names := t }
  | .klass c, t => .klass { c with names := t }
  | .ctor c, t => .ctor { c with names := t }
  | o, _ => o

/-- The `parent` attribute set by `Declaration.__init__`. -/
def Obj.parent : Obj → Ctxt
  | .module m => m.parent
  | .klass c => c.parent
  | .ctor c => c.parent
  | .param p => p.parent
  | .attr a => a.parent
  | .var v => v.parent

/-- The `name` attribute; `Constructor` objects have `name = None`. -/
def Obj.name? : Obj → Option String
  | .module m => some m.name
  | .klass c => some c.name
  | .ctor _ => none
  | .param p => some p.name
  | .attr a => some a.name
  | .var v => some v.name

/-- Whether a heap cell holds a `Module`. -/
def Obj.isModule : Obj → Bool
  | .module _ => true
  | _ => false

/-- The registration step of `Declaration.__init__`:
`if self.name and self.parent: self.parent.names[self.name] = self`.
An empty name or a `None` parent skips registration; a parent without a
`names` table raises `AttributeError`. -/
def registerName (h : Heap) (parent : Ctxt) (name : String) (selfId : ObjId) :
    Except Err Heap :=
  if name = "" then .ok h
  else
    match parent with
    | .pynone => .ok h
    | .exprObj => .error (.attributeError "names")
    | .obj p =>
      match h[p]? with
      | none => .error (.attributeError "names")
      | some o =>
        match o.names? with
        | none => .error (.attributeError "names")
        | some t => .ok (h.set p (o.setNames (odSet t name selfId)))

/-- `Context.__getitem__`: look in the local `names` table, else recurse into
the parent chain; a chainless miss raises `KeyError`.  The recursion follows
heap pointers, so it is indexed by fuel; the wrapper `Context.getitem` below
supplies fuel exceeding any acyclic chain's length. -/
def Context.getitemFuel (h : Heap) : Nat → ObjId → String → Except Err ObjId
  | 0, _, name => .error (.keyError name)
  | fuel + 1, i, name =>
    match h[i]? with
    | none => .error (.attributeError "names")
    | some o =>
      match o.names? with
      | none => .error (.attributeError "names")
      | some t =>
        match odLookup t name with
        | some v => .ok v
        | none =>
          match o.parent with
          | .obj p => Context.getitemFuel h fuel p name
          | .pynone => .error (.keyError name)
          | .exprObj => .error (.attributeError "getitem")

/-- `Context.__getitem__` with fuel covering every acyclic parent chain. -/
def Context.getitem (h : Heap) (i : ObjId) (name : String) : Except Err ObjId :=
  Context.getitemFuel h (h.length + 1) i name

/-- Subscripting the handler's `context` argument (`context[name]`):
subscripting `None` or an expression object raises `TypeError`. -/
def ctxGetitem (h : Heap) (ctx : Ctxt) (name : String) : Except Err ObjId :=
  match ctx with
  | .obj i => Context.getitem h i name
  | .pynone => .error (.typeError "not subscriptable")
  | .exprObj => .error (.typeError "not subscriptable")

/-- `Class.add_constructor`: an empty slot takes the new constructor; a filled
slot is replaced only when the existing constructor's `statements` is `None`,
otherwise `Exception("Cannot handle multiple constructors")` is raised. -/
def Class.add_constructor (h : Heap) (classId methodId : ObjId) : Except Err Heap :=
  match h[classId]? with
  | some (.klass c) =>
    match c.ctor with
    | some existing =>
      match h[existing]? with
      | some (.ctor e) =>
        match e.statements with
        | none => .ok (h.set classId (.klass { c with ctor := some methodId }))
        | some _ => .error (.exception "Cannot handle multiple constructors")
      | _ => .error (.attributeError "statements")
    | none => .ok (h.set classId (.klass { c with ctor := some methodId }))
  | _ => .error (.attributeError "add_constructor")

/-- The state transition of `Constructor.add_statement` on the `statements`
slot: `if self.statements: self.statements.append(statement) else:
self.statements = [statement]` (so `None` — or a falsy empty list — is
replaced by a fresh singleton). -/
def pyAddStmt (acc : Option (List HVal)) (statement : HVal) : Option (List HVal) :=
  match acc with
  | some (s :: ss) => some ((s :: ss) ++ [statement])
  | _ => some [statement]

/-- `Constructor.add_statement`: apply `pyAddStmt` to the slot.  The trailing
`statement.add_imports(self)` is a no-op for every modelled statement. -/
def Constructor.add_statement (h : Heap) (ctorId : ObjId) (statement : HVal) :
    Except Err Heap :=
  match h[ctorId]? with
  | some (.ctor c) =>
    .ok (h.set ctorId (.ctor { c with statements := pyAddStmt c.statements statement }))
  | _ => .error (.attributeError "add_statement")

/-- `context.add_statement(statement)` from `handle_compound_stmt`: only
`Function`/`Method`/`Constructor`/`Destructor` contexts define it; in the
modelled fragment that is the `Constructor`. -/
def ctxAddStatement (h : Heap) (ctx : Ctxt) (statement : HVal) : Except Err Heap :=
  match ctx with
  | .obj i =>
    match h[i]? with
    | some (.ctor _) => Constructor.add_statement h i statement
    | _ => .error (.attributeError "add_statement")
  | _ => .error (.attributeError "add_statement")

/-- `context.add_parameter(self)` from `Parameter.add_to_context`. -/
def ctxAddParameter (h : Heap) (ctx : Ctxt) (paramId : ObjId) : Except Err Heap :=
  match ctx with
  | .obj i =>
    match h[i]? with
    | some (.ctor c) =>
      .ok (h.set i (.ctor { c with parameters := c.parameters ++ [paramId] }))
    | _ => .error (.attributeError "add_parameter")
  | _ => .error (.attributeError "add_parameter")

/-- `Class.add_attribute` (also reached from `Constructor.add_attribute`,
which delegates to `self.parent`): `self.attributes[attr.name] = attr`. -/
def Class.add_attribute (h : Heap) (classId attrId : ObjId) : Except Err Heap :=
  match h[classId]?, h[attrId]? with
  | some (.klass c), some (.attr a) =>
    .ok (h.set classId (.klass { c with attributes := odSet c.attributes a.name attrId }))
  | _, _ => .error (.attributeError "add_attribute")

/-- `context.add_attribute(self)` from `Attribute.add_to_context`; a
`Constructor` context delegates to its parent class. -/
def ctxAddAttribute (h : Heap) (ctx : Ctxt) (attrId : ObjId) : Except Err Heap :=
  match ctx with
  | .obj i =>
    match h[i]? with
    | some (.klass _) => Class.add_attribute h i attrId
    | some (.ctor c) =>
      match c.parent with
      | .obj p => Class.add_attribute h p attrId
      | _ => .error (.attributeError "add_attribute")
    | _ => .error (.attributeError "add_attribute")
  | _ => .error (.attributeError "add_attribute")

/-- `context.add_declaration(self)` from `Class.add_to_context` /
`Variable.add_to_context`.  `Module.add_declaration` stores the declaration
under its name (`None` for unnamed declarations) and calls
`decl.add_imports(module)` — a no-op for every modelled declaration;
`Class.add_declaration` calls `self.classes.append(...)` on an
`OrderedDict`, which raises `AttributeError`. -/
def ctxAddDeclaration (h : Heap) (ctx : Ctxt) (declId : ObjId) : Except Err Heap :=
  match ctx with
  | .obj i =>
    match h[i]? with
    | some (.module m) =>
      match h[declId]? with
      | some o =>
        .ok (h.set i (.module { m with declarations := odSet m.declarations o.name? declId }))
      | none => .error (.attributeError "name")
    | some (.klass _) => .error (.attributeError "append")
    | _ => .error (.attributeError "add_declaration")
  | _ => .error (.attributeError "add_declaration")

/-- `decl.add_to_context(target)`, dispatching on the declaration's own class:
`Class`/`Variable` call `target.add_declaration`; `Constructor` calls
`self.parent.add_constructor(self)` (ignoring `target`); `Parameter` calls
`target.add_parameter`; `Attribute` calls `target.add_attribute`.  Statement
and expression objects have no `add_to_context` (for `AttributeReference` it
is commented out in the source), so they raise `AttributeError`. -/
def addToContext (h : Heap) (v : HVal) (target : Ctxt) : Except Err Heap :=
  match v with
  | .decl i =>
    match h[i]? with
    | some (.klass _) => ctxAddDeclaration h target i
    | some (.var _) => ctxAddDeclaration h target i
    | some (.ctor c) =>
      match c.parent with
      | .obj p => Class.add_constructor h p i
      | _ => .error (.attributeError "add_constructor")
    | some (.param _) => ctxAddParameter h target i
    | some (.attr _) => ctxAddAttribute h target i
    | some (.module _) => .error (.keyError "add_submodule")
    | none => .error (.attributeError "add_to_context")
  | _ => .error (.attributeError "add_to_context")

/-! ## The `CodeWriter` formatting layer -/

/-- `CodeWriter` state: the chunks passed to the underlying stream's `write`
(in order), whether the current line is clear, and how many blank lines have
been emitted since the last content. -/
structure CW where
  out : List String
  line_cleared : Bool
  block_cleared : Nat
deriving DecidableEq, Repr

/-- A fresh `CodeWriter`: `line_cleared = True`, `block_cleared = 2`. -/
def CW.init : CW := { out := [], line_cleared := true, block_cleared := 2 }

/-- `CodeWriter.write`: forward the content, mark the line dirty, reset the
blank-line counter. -/
def CW.write (w : CW) (content : String) : CW :=
  { out := w.out ++ [content], line_cleared := false, block_cleared := 0 }

/-- `CodeWriter.clear_line`: terminate a dirty line, else do nothing. -/
def CW.clear_line (w : CW) : CW :=
  if w.line_cleared then w
  else { out := w.out ++ ["\n"], line_cleared := true, block_cleared := w.block_cleared }

/-- `CodeWriter.clear_block`: `clear_line()`, then the closed form of
`while self.block_cleared < blank_lines: self.out.write('\n');
self.block_cleared += 1`. -/
def CW.clear_block (w : CW) (blank_lines : Nat) : CW :=
  let w' := w.clear_line
  { out := w'.out ++ List.replicate (blank_lines - w'.block_cleared) "\n",
    line_cleared := w'.line_cleared,
    block_cleared := max w'.block_cleared blank_lines }

/-! ## Emission (`output` methods) -/

/-- `'    ' * depth`. -/
def pyIndent (depth : Nat) : String :=
  String.join (List.replicate depth "    ")

/-- `str(value)` for `Literal.output`. -/
def Lit.str_ : Lit → String
  | .int v => toString v
  | .str s => s

/-- The `output` methods of the expression model objects.  Reading an
attribute slot that holds no object (`None.output(...)`, or
`self.true_result` which `handle_conditional_operator` never assigns)
raises `AttributeError`. -/
def Expr.output : Expr → CW → Except Err CW
  | .reference r, w => .ok (w.write r)
  | .selfReference, w => .ok (w.write "self")
  | .attributeReference inst attr, w =>
    match inst with
    | none => .error (.attributeError "output")
    | some e =>
      match e.output w with
      | .ok w' => .ok (w'.write ("." ++ attr))
      | .error er => .error er
  | .literal v, w => .ok (w.write v.str_)
  | .binaryOperation lvalue op rvalue, w =>
    match lvalue with
    | none => .error (.attributeError "output")
    | some le =>
      match le.output w with
      | .ok w1 =>
        match rvalue with
        | none => .error (.attributeError "output")
        | some re => re.output (w1.write (" " ++ op ++ " "))
      | .error er => .error er
  | .conditionalOperation _ true_result condition false_result, w =>
    match true_result with
    | none => .error (.attributeError "true_result")
    | some te =>
      match te.output (w.write "(") with
      | .ok w1 =>
        match condition with
        | none => .error (.attributeError "condition")
        | some ce =>
          match ce.output (w1.write " if ") with
          | .ok w2 =>
            match false_result with
            | none => .error (.attributeError "false_result")
            | some fe =>
              match fe.output (w2.write " else ") with
              | .ok w3 => .ok (w3.write ")")
              | .error er => .error er
          | .error er => .error er
      | .error er => .error er

/-- `Return.output`: `write('return')`; if a value is present, a space, the
value, and `clear_line()` (no `clear_line` for a bare return). -/
def Stmt.output : Stmt → CW → Except Err CW
  | .ret value, w =>
    let w1 := w.write "return"
    match value with
    | none => .ok w1
    | some e =>
      match e.output (w1.write " ") with
      | .ok w2 => .ok w2.clear_line
      | .error er => .error er

/-- Render the `value` slot of a `Variable`/`Attribute`/`Return`; only
statement or expression objects occur there in the modelled fragment
(`None` is handled by the callers' truthiness tests). -/
def valueOutput (v : HVal) (w : CW) : Except Err CW :=
  match v with
  | .expr e => e.output w
  | .stmt s => s.output w
  | _ => .error (.attributeError "output")

/-- `Variable.output`: `<name> = <value or None>` followed by `clear_line`. -/
def Variable.output (h : Heap) (i : ObjId) (w : CW) : Except Err CW :=
  match h[i]? with
  | some (.var v) =>
    let w1 := w.write (v.name ++ " = ")
    if v.value.truthy then
      match valueOutput v.value w1 with
      | .ok w2 => .ok w2.clear_line
      | .error er => .error er
    else .ok (w1.write "None").clear_line
  | _ => .error (.attributeError "output")

/-- `Attribute.output`: `self.<name> = <value or None>` plus `clear_line`. -/
def Attribute.output (h : Heap) (i : ObjId) (w : CW) : Except Err CW :=
  match h[i]? with
  | some (.attr a) =>
    let w1 := w.write ("self." ++ a.name ++ " = ")
    if a.value.truthy then
      match valueOutput a.value w1 with
      | .ok w2 => .ok w2.clear_line
      | .error er => .error er
    else .ok (w1.write "None").clear_line
  | _ => .error (.attributeError "output")

/-- `statement.output(out)` for the members of a body's statement list:
statement and expression objects render directly, `Variable`/`Attribute`
declarations through the heap, and `None` has no `output` method. -/
def HVal.output (h : Heap) : HVal → CW → Except Err CW
  | .stmt s, w => s.output w
  | .expr e, w => e.output w
  | .decl i, w =>
    match h[i]? with
    | some (.var _) => Variable.output h i w
    | some (.attr _) => Attribute.output h i w
    | _ => .error (.attributeError "output")
  | .none_, _ => .error (.attributeError "output")

/-- The attribute loop of `Constructor.output`: for every registered class
attribute, indentation, `attr.output(out)` and a (no-op) `clear_line()`. -/
def attrOutLoop (h : Heap) (depth : Nat) :
    List (String × ObjId) → CW → Except Err CW
  | [], w => .ok w
  | (_, aid) :: rest, w =>
    match Attribute.output h aid (w.write (pyIndent (depth + 1))) with
    | .ok w' => attrOutLoop h depth rest w'.clear_line
    | .error er => .error er

/-- The statement loop of `Constructor.output`. -/
def stmtOutLoop (h : Heap) (depth : Nat) : List HVal → CW → Except Err CW
  | [], w => .ok w
  | s :: rest, w =>
    match HVal.output h s (w.write (pyIndent (depth + 1))) with
    | .ok w' => stmtOutLoop h depth rest w'.clear_line
    | .error er => .error er

/-- Python truthiness of a `statements` slot: `None` and `[]` are falsy. -/
def stmtsTruthy : Option (List HVal) → Bool
  | some (_ :: _) => true
  | _ => false

/-- The parameter display names of `Constructor.output`:
`p.name if p.name else 'arg%s' % (i + 1)`. -/
def Constructor.paramNames (h : Heap) (ps : List ObjId) : List String :=
  ps.enum.map fun iv =>
    match h[iv.2]? with
    | some (Obj.param p) => if p.name = "" then "arg" ++ toString (iv.1 + 1) else p.name
    | _ => ""

/-- `Constructor.output`: the `def __init__` header, then — when the parent
class has attributes or the constructor has statements — one line per class
attribute followed by the body statements (iterating a `None` statement list
raises `TypeError`), else `pass`; finally `clear_block(blank_lines=1)`. -/
def Constructor.output (h : Heap) (i : ObjId) (depth : Nat) (w : CW) :
    Except Err CW :=
  match h[i]? with
  | some (.ctor c) =>
    let w1 := w.write (if c.parameters = [] then pyIndent depth ++ "def __init__(self):\n"
      else pyIndent depth ++ "def __init__(self, " ++
        String.intercalate ", " (Constructor.paramNames h c.parameters) ++ "):\n")
    match c.parent with
    | .obj p =>
      match h[p]? with
      | some (.klass k) =>
        if k.attributes.isEmpty && !stmtsTruthy c.statements then
          .ok ((w1.write (pyIndent (depth + 1) ++ "pass")).clear_block 1)
        else
          match attrOutLoop h depth k.attributes w1 with
          | .ok w2 =>
            match c.statements with
            | none => .error (.typeError "not iterable")
            | some stmts =>
              match stmtOutLoop h depth stmts w2 with
              | .ok w3 => .ok (w3.clear_block 1)
              | .error er => .error er
          | .error er => .error er
      | _ => .error (.attributeError "attributes")
    | _ => .error (.attributeError "attributes")
  | _ => .error (.attributeError "output")

/-- `Class.output`: header (with optional superclass), then the constructor
(destructors and methods are outside the modelled fragment) or `pass`,
then `clear_block()`. -/
def Class.output (h : Heap) (i : ObjId) (depth : Nat) (w : CW) : Except Err CW :=
  match h[i]? with
  | some (.klass c) =>
    let w1 :=
      match c.superclass with
      | some sup => w.write (pyIndent depth ++ "class " ++ c.name ++ "(" ++ sup ++ "):\n")
      | none => w.write (pyIndent depth ++ "class " ++ c.name ++ ":\n")
    match c.ctor with
    | some ci =>
      match Constructor.output h ci (depth + 1) w1 with
      | .ok w2 => .ok (w2.clear_block 2)
      | .error er => .error er
    | none => .ok ((w1.write (pyIndent (depth + 1) ++ "pass")).clear_block 2)
  | _ => .error (.attributeError "output")

/-- `decl.output(out)` for a module-level declaration. -/
def declOutput (h : Heap) (i : ObjId) (w : CW) : Except Err CW :=
  match h[i]? with
  | some (.klass _) => Class.output h i 0 w
  | some (.var _) => Variable.output h i w
  | _ => .error (.attributeError "output")

/-- The declaration loop of `Module.output`. -/
def declOutLoop (h : Heap) : List (Option String × ObjId) → CW → Except Err CW
  | [], w => .ok w
  | (_, did) :: rest, w =>
    match declOutput h did w with
    | .ok w' => declOutLoop h rest w'
    | .error er => .error er

/-- `Module.output`: sorted deduplicated import statements (each followed by
`clear_line`, the group by `clear_block`), then the declarations in
registration order.  (Submodules are outside the modelled fragment.) -/
def Module.output (h : Heap) (i : ObjId) (w : CW) : Except Err CW :=
  match h[i]? with
  | some (.module m) =>
    let w1 :=
      if m.imports = [] then w
      else
        ((m.imports.dedup.insertionSort (· ≤ ·)).foldl
          (fun acc s => (acc.write s).clear_line) w).clear_block 2
    declOutLoop h m.declarations w1
  | _ => .error (.attributeError "output")

/-! ## The dispatcher and model builders (`Generator.handle_*`) -/

/-- Worker for `pySplit`: scan the characters, flushing the accumulated
(reversed) word at each blank and at the end. -/
def wordsAux : List Char → List Char → List String
  | [], [] => []
  | [], acc => [String.mk acc.reverse]
  | c :: cs, acc =>
    if c = ' ' then
      match acc with
      | [] => wordsAux cs []
      | _ => String.mk acc.reverse :: wordsAux cs []
    else wordsAux cs (c :: acc)

/-- Python `str.split()` (split on blank runs, empty pieces dropped), as used
by `handle_type_ref` / `handle_cxx_base_specifier` on spellings like
`"class Foo"`. -/
def pySplit (s : String) : List String :=
  wordsAux s.toList []

/-- The type of the recursive entry point passed to the child loops: the
loops call back into `Generator.handle` for every child. -/
abbrev Handler := Node → Ctxt → Heap → Except Err HVal × Heap

/-- The child loop shared by `handle_translation_unit` / `handle_class_decl`
(and `handle_struct_decl`/`handle_namespace`): build each child and attach
every non-`None` result via `add_to_context`. -/
def declLoop (rec : Handler) : List Node → Ctxt → Heap → Except Err Unit × Heap
  | [], _, h => (.ok (), h)
  | c :: cs, tgt, h =>
    match rec c tgt h with
    | (.error e, h') => (.error e, h')
    | (.ok .none_, h') => declLoop rec cs tgt h'
    | (.ok v, h') =>
      match addToContext h' v tgt with
      | .error e => (.error e, h')
      | .ok h'' => declLoop rec cs tgt h''

/-- The child loop of `handle_constructor`: while `constructor` is still
`None` the child result's `ref` is used to look the owning class (and its
registered constructor) up in the scope chain; afterwards non-`None` results
attach, except re-declared parameters of an out-of-line definition. -/
def ctorLoop (rec : Handler) : List Node → Option ObjId → Bool → Ctxt → Heap → Except Err Unit × Heap
  | [], _, _, _, h => (.ok (), h)
  | c :: cs, acc, is_prototype, ctx, h =>
    match rec c (match acc with | some i => Ctxt.obj i | none => Ctxt.pynone) h with
    | (.error e, h') => (.error e, h')
    | (.ok v, h') =>
      match acc with
      | none =>
        -- `constructor = context[decl.ref].constructor`
        match v with
        | .expr (.reference r) =>
          match ctxGetitem h' ctx r with
          | .error e => (.error e, h')
          | .ok ci =>
            match h'[ci]? with
            | some (.klass k) => ctorLoop rec cs k.ctor is_prototype ctx h'
            | _ => (.error (.attributeError "constructor"), h')
        | _ => (.error (.attributeError "ref"), h')
      | some i =>
        match v with
        | .none_ => ctorLoop rec cs acc is_prototype ctx h'
        | _ =>
          if is_prototype || c.kind ≠ CursorKind.parmDecl then
            match addToContext h' v (.obj i) with
            | .error e => (.error e, h')
            | .ok h'' => ctorLoop rec cs acc is_prototype ctx h''
          else ctorLoop rec cs acc is_prototype ctx h'

/-- The child loop of `handle_compound_stmt`: non-`None` results are appended
to the enclosing statement-holding scope via `add_statement`. -/
def stmtLoop (rec : Handler) : List Node → Ctxt → Heap → Except Err Unit × Heap
  | [], _, h => (.ok (), h)
  | c :: cs, ctx, h =>
    match rec c ctx h with
    | (.error e, h') => (.error e, h')
    | (.ok .none_, h') => stmtLoop rec cs ctx h'
    | (.ok v, h') =>
      match ctxAddStatement h' ctx v with
      | .error e => (.error e, h')
      | .ok h'' => stmtLoop rec cs ctx h''


/-- `Generator.handle`: filter by file, dispatch on the node kind to the
matching `handle_<kind>` rule (each arm below is one source handler, named
in a comment); kinds without a handler — and out-of-file nodes — produce
`None` after a diagnostic. -/
def handleStep (rec : Handler) : Node → Ctxt → Heap → Except Err HVal × Heap
  | .mk k sp tk _rtk inF cs toks, ctx, h =>
    if inF then
      match k with
      | .translationUnit =>
        -- handle_translation_unit
        match declLoop rec cs ctx h with
        | (.ok _, h') => (.ok .none_, h')
        | (.error e, h') => (.error e, h')
      | .classDecl =>
        -- handle_class_decl: Class(context, spelling) registers the name via
        -- Declaration.__init__, then children are handled and attached.
        let o : Obj := .klass { parent := ctx, name := sp, names := [], superclass := none, ctor := none, attributes := [] }
        match halloc h o with
        | (h1, cid) =>
          match registerName h1 ctx sp cid with
          | .error e => (.error e, h1)
          | .ok h2 =>
            match declLoop rec cs (.obj cid) h2 with
            | (.ok _, h3) => (.ok (.decl cid), h3)
            | (.error e, h3) => (.error e, h3)
      | .constructor =>
        -- handle_constructor: `isinstance(context, Class)` decides between the
        -- in-class prototype (fresh Constructor, is_prototype=True, returned)
        -- and the out-of-line definition (looked up via the leading TYPE_REF,
        -- nothing returned).
        let isClass : Bool :=
          match ctx with
          | .obj i =>
            match h[i]? with
            | some (.klass _) => true
            | _ => false
          | _ => false
        if isClass then
          let o : Obj := .ctor { parent := ctx, names := [], parameters := [], statements := none }
          match halloc h o with
          | (h1, ctorId) =>
            match ctorLoop rec cs (some ctorId) true ctx h1 with
            | (.ok _, h2) => (.ok (.decl ctorId), h2)
            | (.error e, h2) => (.error e, h2)
        else
          match ctorLoop rec cs none false ctx h with
          | (.ok _, h') => (.ok .none_, h')
          | (.error e, h') => (.error e, h')
      | .parmDecl =>
        -- handle_parm_decl: Parameter(function, spelling, None, None); the
        -- Declaration.__init__ registration happens at construction.
        match halloc h (.param { parent := ctx, name := sp }) with
        | (h1, pid) =>
          match registerName h1 ctx sp pid with
          | .ok h2 => (.ok (.decl pid), h2)
          | .error e => (.error e, h1)
      | .compoundStmt =>
        -- handle_compound_stmt: build each child, append non-None results to
        -- the context's statement list; returns None.
        match stmtLoop rec cs ctx h with
        | (.ok _, h') => (.ok .none_, h')
        | (.error e, h') => (.error e, h')
      | .typeRef =>
        -- handle_type_ref: Reference(node.spelling.split()[1])
        match pySplit sp with
        | _ :: r :: _ => (.ok (.expr (.reference r)), h)
        | _ => (.error .indexError, h)
      | .returnStmt =>
        -- handle_return_stmt: Return() whose value assignment sits under a
        -- bare `except: pass`, so any failure leaves the value as None.
        match cs with
        | [] => (.ok (.stmt (.ret none)), h)
        | c :: _ =>
          match rec c ctx h with
          | (.ok v, h') => (.ok (.stmt (.ret v.exprOf)), h')
          | (.error _, h') => (.ok (.stmt (.ret none)), h')
      | .integerLiteral =>
        -- handle_integer_literal: Literal(int(next(node.get_tokens()).spelling))
        match toks with
        | [] => (.error .stopIteration, h)
        | t :: _ =>
          match t.toInt? with
          | some v => (.ok (.expr (.literal (.int v))), h)
          | none => (.error .valueError, h)
      | .stringLiteral =>
        -- handle_string_literal: Literal(next(node.get_tokens()).spelling)
        match toks with
        | [] => (.error .stopIteration, h)
        | t :: _ => (.ok (.expr (.literal (.str t))), h)
      | .declRefExpr =>
        -- handle_decl_ref_expr: Reference(node.spelling)
        (.ok (.expr (.reference sp)), h)
      | .varDecl =>
        -- handle_var_decl: the whole body sits under a bare `except:
        -- return None`; a RECORD-typed node first skips its type child.
        match tk with
        | .record =>
          match cs with
          | [] => (.ok .none_, h)
          | [_] => (.ok .none_, h)
          | _ :: c :: _ =>
            match rec c ctx h with
            | (.error _, h') => (.ok .none_, h')
            | (.ok v, h') =>
              match halloc h' (.var { parent := ctx, name := sp, value := v }) with
              | (h2, vid) =>
                match registerName h2 ctx sp vid with
                | .ok h3 => (.ok (.decl vid), h3)
                | .error _ => (.ok .none_, h2)
        | _ =>
          match cs with
          | [] => (.ok .none_, h)
          | c :: _ =>
            match rec c ctx h with
            | (.error _, h') => (.ok .none_, h')
            | (.ok v, h') =>
              match halloc h' (.var { parent := ctx, name := sp, value := v }) with
              | (h2, vid) =>
                match registerName h2 ctx sp vid with
                | .ok h3 => (.ok (.decl vid), h3)
                | .error _ => (.ok .none_, h2)
      | .fieldDecl =>
        -- handle_field_decl: `except StopIteration: return None`, otherwise
        -- Attribute(context, spelling, value).
        match cs with
        | [] => (.ok .none_, h)
        | c :: _ =>
          match rec c ctx h with
          | (.error .stopIteration, h') => (.ok .none_, h')
          | (.error e, h') => (.error e, h')
          | (.ok v, h') =>
            match halloc h' (.attr { parent := ctx, name := sp, value := v }) with
            | (h2, aid) =>
              match registerName h2 ctx sp aid with
              | .ok h3 => (.ok (.decl aid), h3)
              | .error e => (.error e, h2)
      | .memberRef =>
        -- handle_member_ref: no child = implicit self-reference; with a child
        -- the duplicate-child check does `next(children)` where `children`
        -- was never bound, raising NameError.
        match cs with
        | [] => (.ok (.expr (.attributeReference (some .selfReference) sp)), h)
        | c :: _ =>
          match rec c ctx h with
          | (.error .stopIteration, h') =>
            (.ok (.expr (.attributeReference (some .selfReference) sp)), h')
          | (.error e, h') => (.error e, h')
          | (.ok _, h') => (.error (.nameError "children"), h')
      | .memberRefExpr =>
        -- handle_member_ref_expr: implicit self for no child; one child is the
        -- instance expression; more than one child raises.
        match cs with
        | [] => (.ok (.expr (.attributeReference (some .selfReference) sp)), h)
        | c :: rest =>
          match rec c ctx h with
          | (.error .stopIteration, h') =>
            (.ok (.expr (.attributeReference (some .selfReference) sp)), h')
          | (.error e, h') => (.error e, h')
          | (.ok v, h') =>
            match rest with
            | [] => (.ok (.expr (.attributeReference v.exprOf sp)), h')
            | _ =>
              (.error (.exception "Member reference expression has multiple children."), h')
      | .binaryOperator =>
        -- handle_binary_operator: lvalue from the first child, the operator
        -- spelling from the trailing token of the first child's token stream,
        -- rvalue from the second child; other child counts raise.
        match cs with
        | [] => (.error (.exception "Binary expression requires 2 child nodes."), h)
        | l :: rest =>
          match rec l .exprObj h with
          | (.error .stopIteration, h') =>
            (.error (.exception "Binary expression requires 2 child nodes."), h')
          | (.error e, h') => (.error e, h')
          | (.ok lv, h') =>
            match l.tokens.getLast? with
            | none => (.error .indexError, h')
            | some op =>
              match rest with
              | [] => (.error (.exception "Binary expression requires 2 child nodes."), h')
              | r :: rest2 =>
                match rec r .exprObj h' with
                | (.error .stopIteration, h2) =>
                  (.error (.exception "Binary expression requires 2 child nodes."), h2)
                | (.error e, h2) => (.error e, h2)
                | (.ok rv, h2) =>
                  match rest2 with
                  | [] => (.ok (.expr (.binaryOperation lv.exprOf op rv.exprOf)), h2)
                  | _ => (.error (.exception "Binary expression has > 2 child nodes."), h2)
      | .conditionalOperator =>
        -- handle_conditional_operator: three `next(children)` calls with no
        -- guard (a missing child lets StopIteration escape; extra children are
        -- silently ignored); assigns true_value, condition, false_result.
        match cs with
        | [] => (.error .stopIteration, h)
        | t :: rest1 =>
          match rec t .exprObj h with
          | (.error e, h1) => (.error e, h1)
          | (.ok tv, h1) =>
            match rest1 with
            | [] => (.error .stopIteration, h1)
            | c :: rest2 =>
              match rec c .exprObj h1 with
              | (.error e, h2) => (.error e, h2)
              | (.ok cv, h2) =>
                match rest2 with
                | [] => (.error .stopIteration, h2)
                | f :: _ =>
                  match rec f .exprObj h2 with
                  | (.error e, h3) => (.error e, h3)
                  | (.ok fv, h3) =>
                    (.ok (.expr (.conditionalOperation tv.exprOf none cv.exprOf fv.exprOf)), h3)
      | .cxxThisExpr =>
        -- handle_cxx_this_expr
        (.ok (.expr .selfReference), h)
      | .declStmt =>
        -- handle_decl_stmt: first child's result; StopIteration gives None;
        -- any other exception is re-raised as the catch-all Exception.
        match cs with
        | [] => (.ok .none_, h)
        | c :: _ =>
          match rec c ctx h with
          | (.ok v, h') => (.ok v, h')
          | (.error .stopIteration, h') => (.ok .none_, h')
          | (.error _, h') =>
            (.error (.exception "Don\x27t know how to handle multiple statements"), h')
      | .unsupported =>
        -- `getattr` failure: "Ignoring node of type %s", returns None.
        (.ok .none_, h)
    else
      -- file filter: "Ignoring node in file %s", returns None.
      (.ok .none_, h)


/-- `Generator.handle`, closed up with a recursion budget.  The budget only
bounds the *depth* of the recursion (each level spends one unit; the child
loops spend none), so any budget at least the tree height is adequate;
`Err.fuelExhausted` is never reached then. -/
def handle : Nat → Node → Ctxt → Heap → Except Err HVal × Heap
  | 0, _, _, h => (.error .fuelExhausted, h)
  | fuel + 1, n, ctx, h => handleStep (handle fuel) n ctx h

/-- `Module.__init__`: allocate a fresh module.  The comment in the source —
"A module name isn't accessible like a variable, so don't pass it upstream
to the parent" — means the name is set after `Context.__init__(parent)` runs
with `name=None`, so nothing is registered in the parent's table. -/
def Module.init (h : Heap) (name : String) (parent : Ctxt) : Heap × ObjId :=
  halloc h (.module { parent := parent, name := name, names := [], declarations := [], imports := [] })

/-- `Generator(name)` then `parse` (phase 1: build) then `output` (phase 2:
emission through a fresh `CodeWriter`).  An exception in phase 1 escapes
`parse`, so emission never runs and no output is produced.  `fuel` is the
embedding's recursion budget (any value at least the tree height). -/
def translate (fuel : Nat) (name : String) (root : Node) : Except Err (List String) :=
  match Module.init [] name .pynone with
  | (h0, mid) =>
    match handle fuel root (.obj mid) h0 with
    | (.error e, _) => .error e
    | (.ok _, h1) =>
      match Module.output h1 mid CW.init with
      | .ok w => .ok w.out
      | .error e => .error e

/-! ## Scenario node families and specification predicates -/

/-- A parameter-declaration node. -/
def parmNode (name : String) : Node :=
  .mk .parmDecl name .other .other true [] []

/-- `return <ref>;`: a return statement over a plain reference. -/
def returnNode (ref : String) : Node :=
  .mk .returnStmt "" .other .other true [.mk .declRefExpr ref .other .other true [] []] []

/-- The in-class constructor prototype `Foo(<ps>);`. -/
def protoCtorNode (name : String) (ps : List String) : Node :=
  .mk .constructor name .other .other true (ps.map parmNode) []

/-- `class Foo { Foo(<ps>); };` -/
def classNode (name : String) (ps : List String) : Node :=
  .mk .classDecl name .other .other true [protoCtorNode name ps] []

/-- The out-of-line definition `Foo::Foo(<qs>) { return r; ... }`: a leading
`TYPE_REF` child (spelling `class Foo`), the re-declared parameters, and the
compound body. -/
def defnCtorNode (name : String) (qs rs : List String) : Node :=
  .mk .constructor name .other .other true
    (.mk .typeRef ("class " ++ name) .other .other true [] []
      :: (qs.map parmNode ++
          [.mk .compoundStmt "" .other .other true (rs.map returnNode) []])) []

/-- A class with two inline bodied constructors (the duplicate-body abort). -/
def twoCtorClassNode : Node :=
  .mk .classDecl "Foo" .other .other true
    [.mk .constructor "Foo" .other .other true
       [.mk .compoundStmt "" .other .other true [returnNode "a"] []] [],
     .mk .constructor "Foo" .other .other true
       [.mk .compoundStmt "" .other .other true [returnNode "b"] []] []] []

/-- The `Parameter` heap object `handle_parm_decl` allocates under context
`cid`. -/
def paramObjOf (cid : ObjId) (name : String) : Obj :=
  .param { parent := .obj cid, name := name }

/-- The statement model object built for `return <ref>;`. -/
def retStmt (ref : String) : HVal :=
  .stmt (.ret (some (.reference ref)))

/-- The `names` table after `Declaration.__init__` registers parameters `ns`
allocated at consecutive ids from `base` (empty names are skipped). -/
def paramTable (t : List (String × ObjId)) (base : Nat) : List String → List (String × ObjId)
  | [] => t
  | n :: ns => paramTable (if n = "" then t else odSet t n base) (base + 1) ns

/-- Whether a heap cell holds a `Constructor` model object. -/
def Obj.isCtor : Obj → Bool
  | .ctor _ => true
  | _ => false

/-- The root module object `Generator("m")` starts from. -/
def c1Module : Obj :=
  .module { parent := .pynone, name := "m", names := [], declarations := [], imports := [] }

/-- The translation unit holding the class (with the in-class prototype) and
the out-of-line constructor definition, in source order. -/
def c1Root (f : String) (ps qs rs : List String) : Node :=
  .mk .translationUnit "t" .other .other true [classNode f ps, defnCtorNode f qs rs] []

/-- The heap right after `handle_class_decl` has allocated class `f` (id 1)
and `Declaration.__init__` has registered it with the module (id 0). -/
def c1ClassHeap (f : String) : Heap :=
  [.module { parent := .pynone, name := "m", names := [(f, 1)], declarations := [], imports := [] },
   .klass { parent := .obj 0, name := f, names := [], superclass := none, ctor := none, attributes := [] }]

/-- The heap after the in-class prototype: a fresh bodyless `Constructor`
(id 2) carrying the declared parameters (ids 3, 4, …), each parameter also a
fresh heap cell. -/
def c1ProtoHeap (f : String) (ps : List String) : Heap :=
  c1ClassHeap f
    ++ .ctor { parent := .obj 1, names := paramTable [] 3 ps, parameters := List.range' 3 ps.length, statements := none }
    :: ps.map (paramObjOf 2)

/-- The heap after the whole class declaration: the prototype constructor is
attached to the class (`add_constructor`) and the class is recorded in the
module's `declarations` table. -/
def c1MergedHeap (f : String) (ps : List String) : Heap :=
  [.module { parent := .pynone, name := "m", names := [(f, 1)], declarations := [(some f, 1)], imports := [] },
   .klass { parent := .obj 0, name := f, names := [], superclass := none, ctor := some 2, attributes := [] }]
    ++ .ctor { parent := .obj 1, names := paramTable [] 3 ps, parameters := List.range' 3 ps.length, statements := none }
    :: ps.map (paramObjOf 2)

/-- The final heap: still exactly one `Constructor` cell (id 2).  The
out-of-line definition re-registered its parameters in the `names` table and
installed the body statements, but did not touch the `parameters` list — and
although it allocated fresh `Parameter` cells for `qs`, none were attached. -/
def c1FinalHeap (f : String) (ps qs rs : List String) : Heap :=
  [.module { parent := .pynone, name := "m", names := [(f, 1)], declarations := [(some f, 1)], imports := [] },
   .klass { parent := .obj 0, name := f, names := [], superclass := none, ctor := some 2, attributes := [] }]
    ++ .ctor { parent := .obj 1, names := paramTable (paramTable [] 3 ps) (3 + ps.length) qs, parameters := List.range' 3 ps.length, statements := if rs = [] then none else some (rs.map retStmt) }
    :: (ps.map (paramObjOf 2) ++ qs.map (paramObjOf 2))

/-- `ChainTo h i ts`: the parent chain from context `i` is finite and its
`names` tables, innermost first, are `ts`. -/
inductive ChainTo (h : Heap) : ObjId → List (List (String × ObjId)) → Prop where
  | root {i : ObjId} {o : Obj} {t : List (String × ObjId)} :
      h[i]? = some o → o.names? = some t → o.parent = .pynone → ChainTo h i [t]
  | step {i p : ObjId} {o : Obj} {t : List (String × ObjId)}
      {ts : List (List (String × ObjId))} :
      h[i]? = some o → o.names? = some t → o.parent = .obj p → ChainTo h p ts →
      ChainTo h i (t :: ts)

/-- Heap invariant: every symbol-table entry points inside the heap and never
at a `Module` (modules never register their names — see `Module.init`). -/
def NamesInv (h : Heap) : Prop :=
  ∀ (i : ObjId) (o : Obj) (t : List (String × ObjId)), h[i]? = some o → o.names? = some t →
    ∀ kv ∈ t, kv.2 < h.length ∧ ∀ o' : Obj, h[kv.2]? = some o' → o'.isModule = false

/-- `valueOutput v` appends exactly the chunks `d` (leaving a dirty line and
a zero blank-line counter), whatever the writer state. -/
def EmitsVal (v : HVal) (d : List String) : Prop :=
  ∀ w : CW, valueOutput v w =
    .ok { out := w.out ++ d, line_cleared := false, block_cleared := 0 }

/-- `statement.output(out)` appends exactly the chunks `d`, leaving
`line_cleared = lc` and a zero blank-line counter, whatever the writer
state. -/
def EmitsStmt (h : Heap) (v : HVal) (d : List String) (lc : Bool) : Prop :=
  ∀ w : CW, HVal.output h v w =
    .ok { out := w.out ++ d, line_cleared := lc, block_cleared := 0 }

/-- The writer state after emitting one whole attribute or statement line:
the chunks are appended, the line is clear, no blank line yet. -/
def chunked (w : CW) (d : List String) : CW :=
  { out := w.out ++ d, line_cleared := true, block_cleared := 0 }

/-- Per-attribute specification: the table entry holds an `Attribute` whose
name is the entry key and whose initializer renders as the given chunks
(`["None"]` for an absent one). -/
def AttrSpec (h : Heap) (nv : String × ObjId) (e : String × List String) : Prop :=
  ∃ a : AttrObj, h[nv.2]? = some (.attr a) ∧ a.name = e.1 ∧
    ((a.value = .none_ ∧ e.2 = ["None"]) ∨ EmitsVal a.value e.2)

/-! ## Infrastructure lemmas -/

theorem handle_succ (fuel : Nat) (n : Node) (ctx : Ctxt) (h : Heap) :
    handle (fuel + 1) n ctx h = handleStep (handle fuel) n ctx h := rfl

theorem set_self {α : Type} {l : List α} {i : Nat} {a : α} (hl : l[i]? = some a) :
    l.set i a = l := by
  induction l generalizing i with
  | nil => simp at hl
  | cons x xs ih =>
    cases i with
    | zero => simp_all
    | succ j => simp_all [List.set]

theorem odLookup_odSet_self {κ ν : Type} [DecidableEq κ] (t : List (κ × ν)) (k : κ) (v : ν) :
    odLookup (odSet t k v) k = some v := by
  induction t with
  | nil => simp [odSet, odLookup]
  | cons e rest ih =>
    obtain ⟨k', v'⟩ := e
    by_cases hk : k' = k <;> simp [odSet, odLookup, hk, ih]

theorem odLookup_mem {κ ν : Type} [DecidableEq κ] {t : List (κ × ν)} {k : κ} {v : ν}
    (hl : odLookup t k = some v) : (k, v) ∈ t := by
  induction t with
  | nil => simp [odLookup] at hl
  | cons e rest ih =>
    obtain ⟨k', v'⟩ := e
    by_cases hk : k' = k
    · subst hk
      simp [odLookup] at hl
      subst hl
      exact List.mem_cons_self _ _
    · simp [odLookup, hk] at hl
      exact List.mem_cons_of_mem _ (ih hl)

/-! ## C6: blank-line idempotence of the code writer -/

theorem clear_block_fixed {n : Nat} {w : CW} (h1 : w.line_cleared = true)
    (h2 : n ≤ w.block_cleared) : w.clear_block n = w := by
  obtain ⟨out, lc, bc⟩ := w
  simp only at h1 h2
  subst h1
  simp [CW.clear_block, CW.clear_line, Nat.sub_eq_zero_of_le h2, Nat.max_eq_left h2]

/-- **C6.** After a `write` of content, any number `k + 1` of consecutive
`clear_block n` calls leaves the stream with the written chunk, its line
terminator, and exactly `n` blank lines — the same state as a single call:
the operation is idempotent with respect to the target count, never
additive. -/
theorem c6_end_block_idempotent (w : CW) (content : String) (n k : Nat) :
    (fun x : CW => x.clear_block n)^[k + 1] (w.write content) =
      { out := w.out ++ [content, "\n"] ++ List.replicate n "\n",
        line_cleared := true, block_cleared := n } := by
  rw [Function.iterate_succ_apply]
  have hstep : (w.write content).clear_block n =
      { out := w.out ++ [content, "\n"] ++ List.replicate n "\n",
        line_cleared := true, block_cleared := n } := by
    simp [CW.write, CW.clear_block, CW.clear_line]
  rw [hstep]
  exact Function.iterate_fixed (clear_block_fixed rfl (le_refl n)) k

/-! ## C7: name lookup walks the scope chain, missing names raise KeyError -/

theorem getitemFuel_chain (h : Heap) (name : String) {i : ObjId}
    {ts : List (List (String × ObjId))}
    (hch : ChainTo h i ts) :
    ∀ {fuel : Nat}, ts.length < fuel →
      Context.getitemFuel h fuel i name =
        (match ts.findSome? (fun t => odLookup t name) with
         | some v => .ok v
         | none => .error (.keyError name)) := by
  induction hch with
  | root hget hnames hpar =>
    intro fuel hfuel
    obtain ⟨fu, rfl⟩ : ∃ fu, fuel = fu + 1 := ⟨fuel - 1, by omega⟩
    rename_i i o t
    simp only [Context.getitemFuel, hget, hnames]
    cases hv : odLookup t name <;> simp [hv, hpar]
  | step hget hnames hpar hch ih =>
    intro fuel hfuel
    obtain ⟨fu, rfl⟩ : ∃ fu, fuel = fu + 1 := ⟨fuel - 1, by omega⟩
    rename_i i p o t ts
    simp only [Context.getitemFuel, hget, hnames]
    cases hv : odLookup t name with
    | some v => simp [hv]
    | none =>
      have hrec := ih (show List.length ts < fu by simp at hfuel; omega)
      simp [hv, hpar, hrec]

/-- **C7.** `Context.__getitem__` resolves a name through the chain of
enclosing contexts: the result is the innermost table's binding when one
exists, and a raised `KeyError` — never another exception, never a silent
empty value — when the name is absent from every table up to the root. -/
theorem c7_scope_chain_lookup (h : Heap) (i : ObjId) (name : String)
    (ts : List (List (String × ObjId)))
    (hch : ChainTo h i ts) (hlen : ts.length ≤ h.length) :
    Context.getitem h i name =
      (match ts.findSome? (fun t => odLookup t name) with
       | some v => .ok v
       | none => .error (.keyError name)) :=
  getitemFuel_chain h name hch (by omega)

theorem c7_scope_chain_lookup_witness :
    ChainTo
        [Obj.module { parent := .pynone, name := "m", names := [("x", 1)], declarations := [], imports := [] },
         Obj.klass { parent := .obj 0, name := "x", names := [], superclass := none, ctor := none, attributes := [] }]
        1 [[], [("x", 1)]] ∧
      Context.getitem
        [Obj.module { parent := .pynone, name := "m", names := [("x", 1)], declarations := [], imports := [] },
         Obj.klass { parent := .obj 0, name := "x", names := [], superclass := none, ctor := none, attributes := [] }]
        1 "y" = .error (.keyError "y") := by
  have hch : ChainTo
      [Obj.module { parent := .pynone, name := "m", names := [("x", 1)], declarations := [], imports := [] },
       Obj.klass { parent := .obj 0, name := "x", names := [], superclass := none, ctor := none, attributes := [] }]
      1 [[], [("x", 1)]] :=
    ChainTo.step rfl rfl rfl (ChainTo.root rfl rfl rfl)
  exact ⟨hch, (c7_scope_chain_lookup _ 1 "y" _ hch (by simp)).trans rfl⟩

/-! ## C10: modules never register their names; other declarations do -/

/-- **C10.** (1) Constructing a `Module` leaves every existing heap cell —
in particular the parent's symbol table — untouched; (2) the registration
step shared by every other named `Declaration` immediately binds the name
to the new declaration in the parent's table; (3) constructing a module
preserves the invariant that no symbol table mentions a module, and (4)
under that invariant chained lookup never resolves to a `Module`. -/
theorem c10_module_name_unregistered :
    (∀ (h : Heap) (name : String) (ctx : Ctxt) (j : Nat), j < h.length →
       ((Module.init h name ctx).1)[j]? = h[j]?)
    ∧ (∀ (h : Heap) (p : ObjId) (name : String) (cid : ObjId) (o : Obj)
         (t : List (String × ObjId)),
         name ≠ "" → h[p]? = some o → o.names? = some t →
         registerName h (.obj p) name cid = .ok (h.set p (o.setNames (odSet t name cid)))
           ∧ odLookup (odSet t name cid) name = some cid)
    ∧ (∀ (h : Heap) (name : String) (ctx : Ctxt),
         NamesInv h → NamesInv (Module.init h name ctx).1)
    ∧ (∀ (h : Heap) (fuel : Nat), NamesInv h →
         ∀ (i v : ObjId) (name : String) (o : Obj),
           Context.getitemFuel h fuel i name = .ok v →
           h[v]? = some o → o.isModule = false) := by
  refine ⟨?_, ?_, ?_, ?_⟩
  · intro h name ctx j hj
    simp only [Module.init, halloc]
    exact List.getElem?_append_left hj
  · intro h p name cid o t hname hp ht
    refine ⟨?_, odLookup_odSet_self t name cid⟩
    simp [registerName, hname, hp, ht]
  · intro h name ctx hInv i o t hget hnames kv hkv
    simp only [Module.init, halloc] at hget ⊢
    by_cases hi : i < h.length
    · have hget' : h[i]? = some o := by rw [List.getElem?_append_left hi] at hget; exact hget
      obtain ⟨hlt, hmod⟩ := hInv i o t hget' hnames kv hkv
      constructor
      · rw [List.length_append]
        exact Nat.lt_succ_of_lt hlt
      · intro o' ho'
        have ho'' : h[kv.2]? = some o' := by
          rw [List.getElem?_append_left hlt] at ho'
          exact ho'
        exact hmod o' ho''
    · rw [List.getElem?_append_right (Nat.le_of_not_lt hi)] at hget
      cases hd : i - h.length with
      | zero =>
        rw [hd] at hget
        simp only [List.getElem?_cons_zero, Option.some_inj] at hget
        subst hget
        simp only [Obj.names?, Option.some_inj] at hnames
        subst hnames
        simp at hkv
      | succ j =>
        rw [hd] at hget
        simp at hget
  · intro h fuel hInv
    induction fuel with
    | zero =>
      intro i v name o heq
      simp [Context.getitemFuel] at heq
    | succ fu ih =>
      intro i v name o heq hv
      rw [Context.getitemFuel] at heq
      cases hg : h[i]? with
      | none => simp [hg] at heq
      | some oi =>
        simp only [hg] at heq
        cases hn : oi.names? with
        | none => simp [hn] at heq
        | some t =>
          simp only [hn] at heq
          cases hl : odLookup t name with
          | some u =>
            simp only [hl, Except.ok.injEq] at heq
            subst heq
            exact (hInv i oi t hg hn (name, u) (odLookup_mem hl)).2 o hv
          | none =>
            simp only [hl] at heq
            cases hpar : oi.parent with
            | pynone => simp [hpar] at heq
            | exprObj => simp [hpar] at heq
            | obj p =>
              simp only [hpar] at heq
              exact ih p v name o heq hv

theorem c10_module_name_unregistered_witness :
    ((Module.init [Obj.var { parent := .pynone, name := "v", value := .none_ }] "M" (.obj 0)).1)[0]?
        = some (Obj.var { parent := .pynone, name := "v", value := .none_ })
    ∧ registerName [Obj.module { parent := .pynone, name := "M", names := [], declarations := [], imports := [] }]
        (.obj 0) "v" 1
        = .ok [Obj.module { parent := .pynone, name := "M", names := [("v", 1)], declarations := [], imports := [] }]
    ∧ NamesInv (Module.init [] "M" Ctxt.pynone).1
    ∧ (Obj.var { parent := .obj 0, name := "x", value := .none_ }).isModule = false := by
  obtain ⟨h1, h2, h3, h4⟩ := c10_module_name_unregistered
  refine ⟨h1 _ "M" (.obj 0) 0 (by decide), ?_, ?_, ?_⟩
  · exact (h2 _ 0 "v" 1
      (Obj.module { parent := .pynone, name := "M", names := [], declarations := [], imports := [] })
      [] (by decide) rfl rfl).1.trans rfl
  · exact h3 [] "M" .pynone (by intro i o t hget; simp at hget)
  · have hinv : NamesInv
        [Obj.module { parent := .pynone, name := "M", names := [("x", 1)], declarations := [], imports := [] },
         Obj.var { parent := .obj 0, name := "x", value := .none_ }] := by
      intro i o t hget hnames kv hkv
      match i with
      | 0 =>
        simp only [List.getElem?_cons_zero, Option.some_inj] at hget
        subst hget
        simp only [Obj.names?, Option.some_inj] at hnames
        subst hnames
        simp only [List.mem_singleton] at hkv
        subst hkv
        refine ⟨by decide, ?_⟩
        intro o' ho'
        simp only [List.getElem?_cons_succ, List.getElem?_cons_zero, Option.some_inj] at ho'
        subst ho'
        rfl
      | 1 =>
        simp only [List.getElem?_cons_succ, List.getElem?_cons_zero, Option.some_inj] at hget
        subst hget
        simp [Obj.names?] at hnames
      | n + 2 =>
        simp at hget
    exact h4 _ 1 hinv 0 1 "x" _ rfl rfl

/-! ## C3: a variable declaration with no initializer child -/

/-- **C3 (counterexample).**  A variable-declaration node with no
initializer child does NOT produce a `Variable` model object: the bare
`except: return None` in `handle_var_decl` swallows the `StopIteration`
from `next(children)`, and the builder returns `None` with the heap
unchanged — no `Variable` carrying an absent initializer is created,
contrary to the claim. -/
theorem c3_counterexample :
    handle 3 (.mk .varDecl "x" .other .other true [] []) (.obj 0)
        [Obj.module { parent := .pynone, name := "m", names := [], declarations := [], imports := [] }]
      = (.ok .none_,
         [Obj.module { parent := .pynone, name := "m", names := [], declarations := [], imports := [] }]) :=
  rfl

/-- **C3 (amended).**  For every variable-declaration node with no
initializer child, the builder silently returns `None` — never an error,
but also no model object, so the declaration is dropped (this also covers
the RECORD-typed shape whose only child is the skipped type reference);
and whenever a `Variable` whose initializer slot is absent is emitted, it
renders `<name> = None`. -/
theorem c3_absent_initializer (fuel : Nat) :
    (∀ (sp : String) (tk rtk : TypeKind) (toks : List String) (ctx : Ctxt) (h : Heap),
       handle (fuel + 1) (.mk .varDecl sp tk rtk true [] toks) ctx h = (.ok .none_, h))
    ∧ (∀ (sp : String) (rtk : TypeKind) (toks : List String) (c : Node) (ctx : Ctxt) (h : Heap),
       handle (fuel + 1) (.mk .varDecl sp .record rtk true [c] toks) ctx h = (.ok .none_, h))
    ∧ (∀ (h : Heap) (i : ObjId) (ctx : Ctxt) (nm : String) (w : CW),
       h[i]? = some (.var { parent := ctx, name := nm, value := .none_ }) →
       Variable.output h i w = .ok (((w.write (nm ++ " = ")).write "None").clear_line)) := by
  refine ⟨?_, ?_, ?_⟩
  · intro sp tk rtk toks ctx h
    rw [handle_succ]
    cases tk <;> simp [handleStep]
  · intro sp rtk toks c ctx h
    rw [handle_succ]
    simp [handleStep]
  · intro h i ctx nm w hv
    simp [Variable.output, hv, HVal.truthy]

theorem c3_absent_initializer_witness :
    handle 1 (.mk .varDecl "x" .other .other true [] []) .pynone [] = (.ok .none_, [])
    ∧ Variable.output [Obj.var { parent := .pynone, name := "x", value := .none_ }] 0 CW.init
        = .ok (((CW.init.write ("x" ++ " = ")).write "None").clear_line) := by
  obtain ⟨a, _, c⟩ := c3_absent_initializer 0
  exact ⟨a "x" .other .other [] .pynone [], c _ 0 .pynone "x" CW.init rfl⟩

/-! ## C4: member references -/

/-- **C4 (code bug).**  `handle_member_ref` treats a childless node as an
implicit self-reference, but for a node with a child its duplicate-child
check calls `next(children)` although no variable `children` was ever
bound in that function, so Python raises `NameError` — the single-child
case never returns the claimed `<instance>.<name>` reference.  The twin
`handle_member_ref_expr` does implement the claimed behavior: no child is
an implicit self, one child becomes the instance expression, and more
than one child is the fatal structural error. -/
theorem c4_member_ref_name_error :
    handle 2 (.mk .memberRef "fld" .other .other true
        [.mk .declRefExpr "p" .other .other true [] []] []) .pynone []
      = (.error (.nameError "children"), [])
    ∧ handle 2 (.mk .memberRef "fld" .other .other true [] []) .pynone []
      = (.ok (.expr (.attributeReference (some .selfReference) "fld")), [])
    ∧ handle 2 (.mk .memberRefExpr "fld" .other .other true
        [.mk .declRefExpr "p" .other .other true [] []] []) .pynone []
      = (.ok (.expr (.attributeReference (some (.reference "p")) "fld")), [])
    ∧ handle 2 (.mk .memberRefExpr "fld" .other .other true
        [.mk .declRefExpr "p" .other .other true [] [],
         .mk .declRefExpr "q" .other .other true [] []] []) .pynone []
      = (.error (.exception "Member reference expression has multiple children."), []) :=
  ⟨rfl, rfl, rfl, rfl⟩

/-! ## C5: the conditional (ternary) operator -/

/-- **C5 (code bug).**  The builder does consume exactly three children in
source order, storing them in the attributes `true_value`, `condition`
and `false_result`; but `ConditionalOperation.output` reads
`self.true_result`, which the builder never assigns, so emitting the
built node raises `AttributeError` instead of rendering
`(<true> if <cond> else <false>)`. -/
theorem c5_conditional_operator_mismatch :
    handle 2 (.mk .conditionalOperator "" .other .other true
        [.mk .declRefExpr "t" .other .other true [] [],
         .mk .declRefExpr "c" .other .other true [] [],
         .mk .declRefExpr "f" .other .other true [] []] []) .exprObj []
      = (.ok (.expr (.conditionalOperation (some (.reference "t")) none
          (some (.reference "c")) (some (.reference "f")))), [])
    ∧ Expr.output (.conditionalOperation (some (.reference "t")) none
          (some (.reference "c")) (some (.reference "f"))) CW.init
      = .error (.attributeError "true_result") :=
  ⟨rfl, rfl⟩

/-! ## C8: the binary operator -/

/-- **C8.**  `handle_binary_operator` raises the fatal structural error
`Exception("Binary expression requires 2 child nodes.")` /
`...has > 2 child nodes.` for every child count other than two (given the
children themselves build successfully and the left operand has a token),
and with exactly two children it builds a `BinaryOperation` whose operands
are the two children in order and whose operator spelling is the trailing
token of the *left operand's own* token stream — the operator node's own
spelling is never consulted. -/
theorem c8_binary_operator (fuel : Nat) (sp : String) (tk rtk : TypeKind)
    (toks : List String) (ctx : Ctxt) :
    (∀ h : Heap, handle (fuel + 1) (.mk .binaryOperator sp tk rtk true [] toks) ctx h
       = (.error (.exception "Binary expression requires 2 child nodes."), h))
    ∧ (∀ (l : Node) (h h1 : Heap) (lv : HVal) (t : String),
       handle fuel l .exprObj h = (.ok lv, h1) → l.tokens.getLast? = some t →
       handle (fuel + 1) (.mk .binaryOperator sp tk rtk true [l] toks) ctx h
         = (.error (.exception "Binary expression requires 2 child nodes."), h1))
    ∧ (∀ (l r : Node) (h h1 h2 : Heap) (lv rv : HVal) (t : String),
       handle fuel l .exprObj h = (.ok lv, h1) → l.tokens.getLast? = some t →
       handle fuel r .exprObj h1 = (.ok rv, h2) →
       handle (fuel + 1) (.mk .binaryOperator sp tk rtk true [l, r] toks) ctx h
         = (.ok (.expr (.binaryOperation lv.exprOf t rv.exprOf)), h2))
    ∧ (∀ (l r c : Node) (cs : List Node) (h h1 h2 : Heap) (lv rv : HVal) (t : String),
       handle fuel l .exprObj h = (.ok lv, h1) → l.tokens.getLast? = some t →
       handle fuel r .exprObj h1 = (.ok rv, h2) →
       handle (fuel + 1) (.mk .binaryOperator sp tk rtk true (l :: r :: c :: cs) toks) ctx h
         = (.error (.exception "Binary expression has > 2 child nodes."), h2)) := by
  refine ⟨?_, ?_, ?_, ?_⟩
  · intro h
    rw [handle_succ]
    simp [handleStep]
  · intro l h h1 lv t hl ht
    rw [handle_succ]
    simp [handleStep, hl, ht]
  · intro l r h h1 h2 lv rv t hl ht hr
    rw [handle_succ]
    simp [handleStep, hl, ht, hr]
  · intro l r c cs h h1 h2 lv rv t hl ht hr
    rw [handle_succ]
    simp [handleStep, hl, ht, hr]

theorem c8_binary_operator_witness :
    handle 1 (.mk .declRefExpr "a" .other .other true [] ["a"]) .exprObj []
        = (.ok (.expr (.reference "a")), [])
    ∧ (Node.mk .declRefExpr "a" .other .other true [] ["a"]).tokens.getLast? = some "a"
    ∧ handle 1 (.mk .declRefExpr "b" .other .other true [] ["b"]) .exprObj []
        = (.ok (.expr (.reference "b")), [])
    ∧ handle 2 (.mk .binaryOperator "+" .other .other true
        [.mk .declRefExpr "a" .other .other true [] ["a"],
         .mk .declRefExpr "b" .other .other true [] ["b"]] []) .pynone []
      = (.ok (.expr (.binaryOperation (some (.reference "a")) "a" (some (.reference "b")))), []) := by
  refine ⟨rfl, rfl, rfl, ?_⟩
  exact (c8_binary_operator 1 "+" .other .other [] .pynone).2.2.1
    (.mk .declRefExpr "a" .other .other true [] ["a"])
    (.mk .declRefExpr "b" .other .other true [] ["b"])
    [] [] [] (.expr (.reference "a")) (.expr (.reference "b")) "a" rfl rfl rfl

/-! ## C2: duplicate constructor bodies are fatal -/

/-- **C2.**  `Class.add_constructor` silently replaces an already-registered
constructor whose `statements` slot is still `None` (declared without
body), and raises `Exception("Cannot handle multiple constructors")` when
the registered constructor already has a non-empty statement list
(declared with body); in the latter case the exception escapes the build
phase, so the two-phase `translate` returns the error and the emitter
never runs — no output is produced. -/
theorem c2_duplicate_constructor_body (h : Heap) (ci mi ei : ObjId)
    (c : ClassObj) (e : CtorObj)
    (hci : h[ci]? = some (.klass c)) (hce : c.ctor = some ei)
    (hei : h[ei]? = some (.ctor e)) :
    (e.statements = none →
       Class.add_constructor h ci mi = .ok (h.set ci (.klass { c with ctor := some mi })))
    ∧ (∀ s ss, e.statements = some (s :: ss) →
       Class.add_constructor h ci mi
         = .error (.exception "Cannot handle multiple constructors"))
    ∧ translate 6 "m" (.mk .translationUnit "t" .other .other true [twoCtorClassNode] [])
        = .error (.exception "Cannot handle multiple constructors") := by
  refine ⟨?_, ?_, rfl⟩
  · intro hst
    simp [Class.add_constructor, hci, hce, hei, hst]
  · intro s ss hst
    simp [Class.add_constructor, hci, hce, hei, hst]

theorem c2_duplicate_constructor_body_witness :
    Class.add_constructor
        [Obj.klass { parent := .pynone, name := "F", names := [], superclass := none, ctor := some 1, attributes := [] },
         Obj.ctor { parent := .obj 0, names := [], parameters := [], statements := none }] 0 2
      = .ok
        [Obj.klass { parent := .pynone, name := "F", names := [], superclass := none, ctor := some 2, attributes := [] },
         Obj.ctor { parent := .obj 0, names := [], parameters := [], statements := none }]
    ∧ Class.add_constructor
        [Obj.klass { parent := .pynone, name := "F", names := [], superclass := none, ctor := some 1, attributes := [] },
         Obj.ctor { parent := .obj 0, names := [], parameters := [], statements := some [retStmt "a"] }] 0 2
      = .error (.exception "Cannot handle multiple constructors") := by
  constructor
  · exact ((c2_duplicate_constructor_body _ 0 2 1
      { parent := .pynone, name := "F", names := [], superclass := none, ctor := some 1, attributes := [] }
      { parent := .obj 0, names := [], parameters := [], statements := none }
      rfl rfl rfl).1 rfl).trans rfl
  · exact (c2_duplicate_constructor_body _ 0 2 1 _
      { parent := .obj 0, names := [], parameters := [], statements := some [retStmt "a"] }
      rfl rfl rfl).2.1 (retStmt "a") [] rfl

/-! ## C9: constructor emission puts attribute lines before body lines -/

theorem EmitsVal.truthy {v : HVal} {d : List String} (he : EmitsVal v d) :
    v.truthy = true := by
  cases v with
  | none_ =>
    have := he CW.init
    simp [valueOutput] at this
  | decl i =>
    have := he CW.init
    simp [valueOutput] at this
  | expr e => rfl
  | stmt s => rfl

theorem attrOutLoop_spec (h : Heap) (depth : Nat) :
    ∀ {attrs : List (String × ObjId)} {es : List (String × List String)},
      List.Forall₂ (AttrSpec h) attrs es →
      ∀ w : CW, attrOutLoop h depth attrs w =
        .ok (es.foldl
          (fun acc e => chunked acc ([pyIndent (depth + 1), "self." ++ e.1 ++ " = "] ++ e.2 ++ ["\n"]))
          w) := by
  intro attrs es hf
  induction hf with
  | nil => intro w; rfl
  | cons ha hrest ih =>
    intro w
    rename_i nv e attrs' es'
    obtain ⟨a, hget, hname, hval⟩ := ha
    rcases hval with ⟨hnone, hd⟩ | hemit
    · simp only [attrOutLoop, Attribute.output, hget, hnone, List.foldl_cons]
      simp only [HVal.truthy, Bool.false_eq_true, if_false]
      rw [ih]
      congr 1
      simp [chunked, CW.write, CW.clear_line, hname, hd]
    · have htr := hemit.truthy
      simp only [attrOutLoop, Attribute.output, hget, htr, if_true, List.foldl_cons]
      rw [hemit]
      simp only []
      rw [ih]
      congr 1
      simp [chunked, CW.write, CW.clear_line, hname]

theorem stmtOutLoop_spec (h : Heap) (depth : Nat) :
    ∀ {stmts : List HVal} {ss : List (List String × Bool)},
      List.Forall₂ (fun v sd => EmitsStmt h v sd.1 sd.2) stmts ss →
      ∀ w : CW, stmtOutLoop h depth stmts w =
        .ok (ss.foldl
          (fun acc sd => chunked acc ([pyIndent (depth + 1)] ++ sd.1 ++ (if sd.2 then [] else ["\n"])))
          w) := by
  intro stmts ss hf
  induction hf with
  | nil => intro w; rfl
  | cons hs hrest ih =>
    intro w
    rename_i v sd stmts' ss'
    simp only [stmtOutLoop, List.foldl_cons]
    rw [hs]
    simp only []
    rw [ih]
    congr 1
    cases hb : sd.2 <;> simp [chunked, CW.write, CW.clear_line, hb]

theorem foldl_chunked_out {α : Type} (f : α → List String) :
    ∀ (l : List α) (w : CW),
      (l.foldl (fun acc a => chunked acc (f a)) w).out = w.out ++ (l.map f).flatten := by
  intro l
  induction l with
  | nil => intro w; simp
  | cons a l ih =>
    intro w
    rw [List.foldl_cons, ih]
    simp [chunked, List.append_assoc]

/-- **C9.**  Emitting a constructor whose statement list is non-empty writes
the `def __init__` header, then — inside the body — one
`self.<name> = <initializer or None>` line for every attribute registered
on the owning class, in registration order, and only then the
constructor's own body statements, closing with `clear_block(1)`.  The
second conjunct spells the stream out: header, then the attribute lines,
then the statement lines, in that order. -/
theorem c9_constructor_attr_lines (h : Heap) (i p : ObjId) (depth : Nat)
    (c : CtorObj) (k : ClassObj) (s0 : HVal) (srest : List HVal)
    (es : List (String × List String)) (ss : List (List String × Bool))
    (hc : h[i]? = some (.ctor c)) (hp : c.parent = .obj p)
    (hk : h[p]? = some (.klass k))
    (hst : c.statements = some (s0 :: srest))
    (hattrs : List.Forall₂ (AttrSpec h) k.attributes es)
    (hstmts : List.Forall₂ (fun v sd => EmitsStmt h v sd.1 sd.2) (s0 :: srest) ss)
    (w : CW) :
    let header := if c.parameters = [] then pyIndent depth ++ "def __init__(self):\n"
      else pyIndent depth ++ "def __init__(self, " ++
        String.intercalate ", " (Constructor.paramNames h c.parameters) ++ "):\n"
    let attrChunk := fun e : String × List String =>
      [pyIndent (depth + 1), "self." ++ e.1 ++ " = "] ++ e.2 ++ ["\n"]
    let stmtChunk := fun sd : List String × Bool =>
      [pyIndent (depth + 1)] ++ sd.1 ++ (if sd.2 then [] else ["\n"])
    let w3 := ss.foldl (fun acc sd => chunked acc (stmtChunk sd))
      (es.foldl (fun acc e => chunked acc (attrChunk e)) (w.write header))
    Constructor.output h i depth w = .ok (w3.clear_block 1)
    ∧ (w3.clear_block 1).out =
        w.out ++ [header] ++ (es.map attrChunk).flatten ++ (ss.map stmtChunk).flatten ++ ["\n"] := by
  intro header attrChunk stmtChunk w3
  have hmain : Constructor.output h i depth w = .ok (w3.clear_block 1) := by
    rw [Constructor.output]
    simp only [hc, hp, hk, hst]
    have hcond : (k.attributes.isEmpty && !stmtsTruthy (some (s0 :: srest))) = false := by
      simp [stmtsTruthy]
    rw [hcond]
    simp only [Bool.false_eq_true, if_false]
    rw [attrOutLoop_spec h depth hattrs]
    simp only []
    rw [stmtOutLoop_spec h depth hstmts]
  refine ⟨hmain, ?_⟩
  have hss : ss ≠ [] := by
    cases hstmts
    simp
  have h2out : (es.foldl (fun acc e => chunked acc (attrChunk e)) (w.write header)).out =
      w.out ++ [header] ++ (es.map attrChunk).flatten := by
    rw [foldl_chunked_out]
    simp [CW.write, List.append_assoc]
  have h3out : w3.out =
      w.out ++ [header] ++ (es.map attrChunk).flatten ++ (ss.map stmtChunk).flatten := by
    show (ss.foldl (fun acc sd => chunked acc (stmtChunk sd)) _).out = _
    rw [foldl_chunked_out, h2out]
  have h3flags : w3.line_cleared = true ∧ w3.block_cleared = 0 := by
    obtain ⟨sd, ss', rfl⟩ : ∃ sd ss', ss = ss' ++ [sd] := by
      rcases List.eq_nil_or_concat ss with hcase | hcase
      · exact absurd hcase hss
      · obtain ⟨ss', sd, rfl⟩ := hcase
        exact ⟨sd, ss', List.concat_eq_append ss' sd⟩
    constructor
    · show ((ss' ++ [sd]).foldl (fun acc sd => chunked acc (stmtChunk sd)) _).line_cleared = true
      rw [List.foldl_append]
      rfl
    · show ((ss' ++ [sd]).foldl (fun acc sd => chunked acc (stmtChunk sd)) _).block_cleared = 0
      rw [List.foldl_append]
      rfl
  have hcb : w3.clear_block 1 =
      { out := w3.out ++ ["\n"], line_cleared := true, block_cleared := 1 } := by
    rw [CW.clear_block, CW.clear_line]
    simp [h3flags.1, h3flags.2]
  rw [hcb, h3out]

theorem c9_constructor_attr_lines_witness :
    List.Forall₂ (AttrSpec
        [Obj.klass { parent := .pynone, name := "K", names := [], superclass := none, ctor := some 1, attributes := [("a", 2), ("b", 3)] },
         Obj.ctor { parent := .obj 0, names := [], parameters := [], statements := some [retStmt "x"] },
         Obj.attr { parent := .obj 0, name := "a", value := .none_ },
         Obj.attr { parent := .obj 0, name := "b", value := .expr (.reference "r") }])
      [("a", 2), ("b", 3)] [("a", ["None"]), ("b", ["r"])]
    ∧ Constructor.output
        [Obj.klass { parent := .pynone, name := "K", names := [], superclass := none, ctor := some 1, attributes := [("a", 2), ("b", 3)] },
         Obj.ctor { parent := .obj 0, names := [], parameters := [], statements := some [retStmt "x"] },
         Obj.attr { parent := .obj 0, name := "a", value := .none_ },
         Obj.attr { parent := .obj 0, name := "b", value := .expr (.reference "r") }]
        1 1 CW.init
      = .ok ((List.foldl
          (fun acc sd => chunked acc ([pyIndent 2] ++ sd.1 ++ (if sd.2 then [] else ["\n"])))
          (List.foldl
            (fun acc e => chunked acc ([pyIndent 2, "self." ++ e.1 ++ " = "] ++ e.2 ++ ["\n"]))
            (CW.init.write (pyIndent 1 ++ "def __init__(self):\n"))
            [("a", ["None"]), ("b", ["r"])])
          [(["return", " ", "x", "\n"], true)]).clear_block 1) := by
  have hattrs : List.Forall₂ (AttrSpec
      [Obj.klass { parent := .pynone, name := "K", names := [], superclass := none, ctor := some 1, attributes := [("a", 2), ("b", 3)] },
       Obj.ctor { parent := .obj 0, names := [], parameters := [], statements := some [retStmt "x"] },
       Obj.attr { parent := .obj 0, name := "a", value := .none_ },
       Obj.attr { parent := .obj 0, name := "b", value := .expr (.reference "r") }])
      [("a", 2), ("b", 3)] [("a", ["None"]), ("b", ["r"])] :=
    List.Forall₂.cons
      ⟨{ parent := .obj 0, name := "a", value := .none_ }, rfl, rfl, Or.inl ⟨rfl, rfl⟩⟩
      (List.Forall₂.cons
        ⟨{ parent := .obj 0, name := "b", value := .expr (.reference "r") }, rfl, rfl,
          Or.inr (fun _ => rfl)⟩
        List.Forall₂.nil)
  have hstmts : List.Forall₂
      (fun v sd => EmitsStmt
        [Obj.klass { parent := .pynone, name := "K", names := [], superclass := none, ctor := some 1, attributes := [("a", 2), ("b", 3)] },
         Obj.ctor { parent := .obj 0, names := [], parameters := [], statements := some [retStmt "x"] },
         Obj.attr { parent := .obj 0, name := "a", value := .none_ },
         Obj.attr { parent := .obj 0, name := "b", value := .expr (.reference "r") }]
        v sd.1 sd.2)
      [retStmt "x"] [(["return", " ", "x", "\n"], true)] :=
    List.Forall₂.cons
      (by
        intro w
        show Except.ok ({ out := (((w.out ++ ["return"]) ++ [" "]) ++ ["x"]) ++ ["\n"], line_cleared := true, block_cleared := 0 } : CW) = _
        simp [List.append_assoc])
      List.Forall₂.nil
  exact ⟨hattrs,
    (c9_constructor_attr_lines _ 1 0 1
      { parent := .obj 0, names := [], parameters := [], statements := some [retStmt "x"] }
      { parent := .pynone, name := "K", names := [], superclass := none, ctor := some 1, attributes := [("a", 2), ("b", 3)] }
      (retStmt "x") [] [("a", ["None"]), ("b", ["r"])] [(["return", " ", "x", "\n"], true)]
      rfl rfl rfl rfl hattrs hstmts CW.init).1⟩

/-! ## C1: prototype/definition reconciliation for constructors -/

theorem getitem_hit (h : Heap) (i : ObjId) (name : String) (o : Obj)
    (t : List (String × ObjId)) (v : ObjId)
    (h1 : h[i]? = some o) (h2 : o.names? = some t) (h3 : odLookup t name = some v) :
    Context.getitem h i name = .ok v := by
  rw [Context.getitem]
  simp [Context.getitemFuel, h1, h2, h3]

theorem handle_parmNode (fuel : Nat) (s : String) (cid : ObjId) (c : CtorObj) (h : Heap)
    (hc : h[cid]? = some (.ctor c)) (hlt : cid < h.length) :
    handle (fuel + 1) (parmNode s) (.obj cid) h =
      (.ok (.decl h.length),
       (h ++ [paramObjOf cid s]).set cid
         (.ctor { c with names := if s = "" then c.names else odSet c.names s h.length })) := by
  rw [handle_succ]
  have hget : (h ++ [Obj.param { parent := Ctxt.obj cid, name := s }])[cid]? = some (.ctor c) := by
    rw [List.getElem?_append_left hlt]
    exact hc
  by_cases hs : s = ""
  · subst hs
    obtain ⟨cp, cn, cpar, cst⟩ := c
    simp [handleStep, parmNode, halloc, registerName, paramObjOf, set_self hget]
  · simp [handleStep, parmNode, halloc, registerName, hs, hget, Obj.names?, Obj.setNames,
      paramObjOf]

theorem handle_returnNode (fuel : Nat) (r : String) (ctx : Ctxt) (h : Heap) :
    handle (fuel + 2) (returnNode r) ctx h = (.ok (retStmt r), h) := by
  rw [show fuel + 2 = (fuel + 1) + 1 from rfl, handle_succ]
  simp [handleStep, returnNode, handle_succ, retStmt, HVal.exprOf]

theorem handle_typeRefNode (fuel : Nat) (f : String) (ctx : Ctxt) (h : Heap)
    (hsplit : pySplit ("class " ++ f) = ["class", f]) :
    handle (fuel + 1) (.mk .typeRef ("class " ++ f) .other .other true [] []) ctx h
      = (.ok (.expr (.reference f)), h) := by
  rw [handle_succ]
  simp [handleStep, hsplit]

theorem foldl_pyAddStmt_some (l : List HVal) :
    ∀ (x : HVal) (xs : List HVal), l.foldl pyAddStmt (some (x :: xs)) = some ((x :: xs) ++ l) := by
  induction l with
  | nil => intro x xs; simp
  | cons s l ih =>
    intro x xs
    rw [List.foldl_cons]
    show l.foldl pyAddStmt (some ((x :: xs) ++ [s])) = _
    rw [List.cons_append, ih x (xs ++ [s])]
    simp

theorem foldl_pyAddStmt_none_map (rs : List String) :
    (rs.map retStmt).foldl pyAddStmt none = if rs = [] then none else some (rs.map retStmt) := by
  cases rs with
  | nil => rfl
  | cons r rs =>
    rw [List.map_cons, List.foldl_cons]
    show (rs.map retStmt).foldl pyAddStmt (some [retStmt r]) = _
    rw [foldl_pyAddStmt_some (rs.map retStmt) (retStmt r) []]
    simp

/-- The statement loop of `handle_compound_stmt` over a body of plain
`return <ref>;` statements folds `Constructor.add_statement` over the
constructor's `statements` slot and touches nothing else. -/
theorem stmtLoop_rets (rec : Handler)
    (hrec : ∀ (r : String) (ctx : Ctxt) (h : Heap), rec (returnNode r) ctx h = (.ok (retStmt r), h)) :
    ∀ (rs : List String) (h : Heap) (cid : ObjId) (c : CtorObj),
      h[cid]? = some (.ctor c) →
      stmtLoop rec (rs.map returnNode) (.obj cid) h =
        (.ok (), h.set cid (.ctor { c with statements := (rs.map retStmt).foldl pyAddStmt c.statements })) := by
  intro rs
  induction rs with
  | nil =>
    intro h cid c hc
    obtain ⟨cp, cn, cpar, cst⟩ := c
    simp [stmtLoop, set_self hc]
  | cons r rs ih =>
    intro h cid c hc
    have hlt : cid < h.length := (List.getElem?_eq_some_iff.1 hc).1
    simp only [List.map_cons, stmtLoop, hrec, retStmt]
    simp only [ctxAddStatement, Constructor.add_statement, hc]
    have hc' : (h.set cid (.ctor { c with statements := pyAddStmt c.statements (retStmt r) }))[cid]?
        = some (.ctor { c with statements := pyAddStmt c.statements (retStmt r) }) :=
      List.getElem?_set_self (by simpa using hlt)
    simp only [retStmt] at hc'
    rw [ih _ cid _ hc']
    rw [List.set_set]
    simp only [retStmt, List.foldl_cons]

/-- `Parameter.add_to_context` on a `Constructor` context: append to the
`parameters` list. -/
theorem addToContext_param (h : Heap) (pid cid : ObjId) (pobj : ParamObj) (c : CtorObj)
    (hp : h[pid]? = some (.param pobj)) (hc : h[cid]? = some (.ctor c)) :
    addToContext h (.decl pid) (.obj cid)
      = .ok (h.set cid (.ctor { c with parameters := c.parameters ++ [pid] })) := by
  simp [addToContext, hp, ctxAddParameter, hc]

/-- The parameter stretch of `handle_constructor`'s child loop: every
`PARM_DECL` child allocates a `Parameter` registered in the constructor's
`names` table, and is attached to the `parameters` list exactly when the
occurrence is the prototype (`is_prototype = true`). -/
theorem ctorLoop_parms (rec : Handler)
    (hrec : ∀ (s : String) (cid : ObjId) (c : CtorObj) (h : Heap),
      h[cid]? = some (.ctor c) → cid < h.length →
      rec (parmNode s) (.obj cid) h =
        (.ok (.decl h.length),
         (h ++ [paramObjOf cid s]).set cid
           (.ctor { c with names := if s = "" then c.names else odSet c.names s h.length }))) :
    ∀ (ns : List String) (rest : List Node) (b : Bool) (ctx : Ctxt)
      (h : Heap) (cid : ObjId) (c : CtorObj),
      h[cid]? = some (.ctor c) → cid < h.length →
      ctorLoop rec (ns.map parmNode ++ rest) (some cid) b ctx h =
        ctorLoop rec rest (some cid) b ctx
          ((h ++ ns.map (paramObjOf cid)).set cid
            (.ctor { c with names := paramTable c.names h.length ns, parameters := c.parameters ++ (if b then List.range' h.length ns.length else []) })) := by
  intro ns
  induction ns with
  | nil =>
    intro rest b ctx h cid c hc hlt
    obtain ⟨cp, cn, cpar, cst⟩ := c
    simp only [List.map_nil, List.nil_append, List.append_nil, paramTable, List.length_nil,
      List.range'_zero]
    have hb : (if b = true then ([] : List ObjId) else []) = [] := by cases b <;> rfl
    rw [hb, List.append_nil, set_self hc]
  | cons n ns ih =>
    intro rest b ctx h cid c hc hlt
    simp only [List.map_cons, List.cons_append, ctorLoop]
    rw [hrec n cid c h hc hlt]
    simp only [Node.kind, parmNode]
    have hlen1 : ((h ++ [paramObjOf cid n]).set cid
        (.ctor { c with names := if n = "" then c.names else odSet c.names n h.length })).length
        = h.length + 1 := by
      simp
    have hget1 : ((h ++ [paramObjOf cid n]).set cid
        (.ctor { c with names := if n = "" then c.names else odSet c.names n h.length }))[cid]?
        = some (.ctor { c with names := if n = "" then c.names else odSet c.names n h.length }) :=
      List.getElem?_set_self (by rw [List.length_append]; exact Nat.lt_succ_of_lt hlt)
    have hlt1 : cid < ((h ++ [paramObjOf cid n]).set cid
        (.ctor { c with names := if n = "" then c.names else odSet c.names n h.length })).length := by
      rw [hlen1]
      exact Nat.lt_succ_of_lt hlt
    cases b with
    | true =>
      simp only [Bool.true_or, if_true]
      have hpget : ((h ++ [paramObjOf cid n]).set cid
          (.ctor { c with names := if n = "" then c.names else odSet c.names n h.length }))[h.length]?
          = some (.param { parent := Ctxt.obj cid, name := n }) := by
        rw [List.getElem?_set_ne (Nat.ne_of_lt hlt)]
        exact List.getElem?_concat_length h (paramObjOf cid n)
      rw [addToContext_param _ h.length cid _ _ hpget hget1]
      simp only [List.set_set]
      have hget2 : ((h ++ [paramObjOf cid n]).set cid
          (.ctor { c with names := if n = "" then c.names else odSet c.names n h.length, parameters := c.parameters ++ [h.length] }))[cid]?
          = some (.ctor { c with names := if n = "" then c.names else odSet c.names n h.length, parameters := c.parameters ++ [h.length] }) :=
        List.getElem?_set_self (by simp; exact Nat.lt_succ_of_lt hlt)
      have hlt2 : cid < ((h ++ [paramObjOf cid n]).set cid
          (.ctor { c with names := if n = "" then c.names else odSet c.names n h.length, parameters := c.parameters ++ [h.length] })).length := by
        simp
        exact Nat.lt_succ_of_lt hlt
      simp only [List.append_eq]
      rw [ih rest true ctx _ cid _ hget2 hlt2]
      congr 1
      rw [← List.set_append_left _ _ (by simp; exact Nat.lt_succ_of_lt hlt), List.set_set]
      simp only [List.length_set, List.length_append, List.length_cons, List.length_nil,
        List.append_assoc, List.singleton_append, Nat.zero_add, Nat.add_zero]
      simp [paramTable, List.range'_succ]
    | false =>
      simp only [Bool.false_or]
      rw [if_neg (by simp)]
      simp only [List.append_eq]
      rw [ih rest false ctx _ cid _ hget1 hlt1]
      congr 1
      rw [← List.set_append_left _ _ (by simp; exact Nat.lt_succ_of_lt hlt), List.set_set]
      simp only [List.length_set, List.length_append, List.length_cons, List.length_nil,
        List.append_assoc, List.singleton_append, Nat.zero_add, Nat.add_zero]
      simp [paramTable]

/-- C1: a constructor declared in-class and defined out-of-line yields exactly
one `Constructor` model object.  Conjunct 1: the in-class prototype creates a
fresh `Constructor` (id 2) holding the declared parameters and returns it to
its caller.  Conjunct 2: the out-of-line occurrence looks the class up via the
leading `TYPE_REF` child, attaches only the body statements (the re-declared
parameters are built but not attached, and the `parameters` list keeps the
prototype ids) and returns `None`.  Conjunct 3: the whole translation unit
produces the merged heap.  Conjunct 4: that heap holds exactly one
`Constructor` cell. -/
theorem c1_constructor_prototype_merge (fuel : Nat) (f : String) (ps qs rs : List String)
    (hf : f ≠ "") (hsplit : pySplit ("class " ++ f) = ["class", f]) :
    handle (fuel + 3) (protoCtorNode f ps) (.obj 1) (c1ClassHeap f)
      = (.ok (.decl 2), c1ProtoHeap f ps)
    ∧ handle (fuel + 4) (defnCtorNode f qs rs) (.obj 0) (c1MergedHeap f ps)
      = (.ok .none_, c1FinalHeap f ps qs rs)
    ∧ handle (fuel + 5) (c1Root f ps qs rs) (.obj 0) [c1Module]
      = (.ok .none_, c1FinalHeap f ps qs rs)
    ∧ (c1FinalHeap f ps qs rs).countP Obj.isCtor = 1 := by
  have hproto : handle (fuel + 3) (protoCtorNode f ps) (.obj 1) (c1ClassHeap f)
      = (.ok (.decl 2), c1ProtoHeap f ps) := by
    rw [show fuel + 3 = (fuel + 2) + 1 from rfl, handle_succ]
    have hc : ((c1ClassHeap f) ++ [Obj.ctor { parent := .obj 1, names := [], parameters := [], statements := none }])[2]?
        = some (.ctor { parent := .obj 1, names := [], parameters := [], statements := none }) := by
      simp [c1ClassHeap]
    have hlt : (2 : Nat) < ((c1ClassHeap f) ++ [Obj.ctor { parent := .obj 1, names := [], parameters := [], statements := none }]).length := by
      simp [c1ClassHeap]
    simp only [handleStep, protoCtorNode, halloc, c1ClassHeap, List.length_cons, List.length_nil,
      Nat.zero_add, if_true]
    rw [show (ps.map parmNode) = ps.map parmNode ++ [] from (List.append_nil _).symm]
    rw [show ([Obj.module { parent := .pynone, name := "m", names := [(f, 1)], declarations := [], imports := [] },
        Obj.klass { parent := .obj 0, name := f, names := [], superclass := none, ctor := none, attributes := [] }] : Heap)
        = c1ClassHeap f from rfl]
    rw [ctorLoop_parms (handle (fuel + 2)) (fun s cid c h hc hlt => handle_parmNode (fuel + 1) s cid c h hc hlt)
        ps [] true (.obj 1) _ 2 _ hc hlt]
    simp [ctorLoop, c1ProtoHeap, c1ClassHeap, List.set]
  have hdefn : handle (fuel + 4) (defnCtorNode f qs rs) (.obj 0) (c1MergedHeap f ps)
      = (.ok .none_, c1FinalHeap f ps qs rs) := by
    rw [show fuel + 4 = (fuel + 3) + 1 from rfl, handle_succ]
    have h0 : (c1MergedHeap f ps)[0]? = some (.module { parent := .pynone, name := "m", names := [(f, 1)], declarations := [(some f, 1)], imports := [] }) := by
      simp [c1MergedHeap]
    have h1 : (c1MergedHeap f ps)[1]? = some (.klass { parent := .obj 0, name := f, names := [], superclass := none, ctor := some 2, attributes := [] }) := by
      simp [c1MergedHeap]
    have hget : ctxGetitem (c1MergedHeap f ps) (.obj 0) f = .ok 1 :=
      getitem_hit _ 0 f (.module { parent := .pynone, name := "m", names := [(f, 1)], declarations := [(some f, 1)], imports := [] }) [(f, 1)] 1
        h0 rfl (by simp [odLookup])
    simp only [handleStep, defnCtorNode, h0, ctorLoop]
    rw [show handle (fuel + 3) (.mk .typeRef ("class " ++ f) .other .other true [] []) .pynone (c1MergedHeap f ps)
        = (.ok (.expr (.reference f)), c1MergedHeap f ps) from handle_typeRefNode (fuel + 2) f .pynone _ hsplit]
    simp only [hget, h1, Bool.false_eq_true, if_false, if_true]
    have h2get : (c1MergedHeap f ps)[2]? = some (.ctor { parent := .obj 1, names := paramTable [] 3 ps, parameters := List.range' 3 ps.length, statements := none }) := by
      simp [c1MergedHeap]
    have hlt2 : 2 < (c1MergedHeap f ps).length := by
      simp [c1MergedHeap]
    rw [ctorLoop_parms (handle (fuel + 3)) (fun s cid c h hc hlt => handle_parmNode (fuel + 2) s cid c h hc hlt)
        qs [.mk .compoundStmt "" .other .other true (rs.map returnNode) []] false (.obj 0) _ 2 _ h2get hlt2]
    have hlen : (c1MergedHeap f ps).length = 3 + ps.length := by
      simp [c1MergedHeap]
      omega
    simp only [hlen, Bool.false_eq_true, if_false, List.append_nil]
    have hcomp : ∀ (h2 : Heap) (c2 : CtorObj), h2[2]? = some (.ctor c2) →
        handle (fuel + 3) (.mk .compoundStmt "" .other .other true (rs.map returnNode) []) (.obj 2) h2
          = (.ok .none_, h2.set 2 (.ctor { c2 with statements := (rs.map retStmt).foldl pyAddStmt c2.statements })) := by
      intro h2 c2 hq
      rw [show fuel + 3 = (fuel + 2) + 1 from rfl, handle_succ]
      simp only [handleStep]
      rw [stmtLoop_rets (handle (fuel + 2)) (fun r ctx h => handle_returnNode fuel r ctx h) rs h2 2 c2 hq]
      simp
    have hq7 : ((c1MergedHeap f ps ++ List.map (paramObjOf 2) qs).set 2
        (Obj.ctor { parent := Ctxt.obj 1, names := paramTable (paramTable [] 3 ps) (3 + ps.length) qs, parameters := List.range' 3 ps.length, statements := none }))[2]?
        = some (.ctor { parent := Ctxt.obj 1, names := paramTable (paramTable [] 3 ps) (3 + ps.length) qs, parameters := List.range' 3 ps.length, statements := none }) :=
      List.getElem?_set_self (by simp [c1MergedHeap])
    simp only [ctorLoop]
    rw [hcomp _ _ hq7]
    simp only [ctorLoop]
    rw [foldl_pyAddStmt_none_map, List.set_set]
    simp [c1MergedHeap, c1FinalHeap, List.set]
  have hclass : handle (fuel + 4) (classNode f ps) (.obj 0) [c1Module]
      = (.ok (.decl 1),
         [Obj.module { parent := .pynone, name := "m", names := [(f, 1)], declarations := [], imports := [] },
          Obj.klass { parent := .obj 0, name := f, names := [], superclass := none, ctor := some 2, attributes := [] }]
           ++ .ctor { parent := .obj 1, names := paramTable [] 3 ps, parameters := List.range' 3 ps.length, statements := none }
           :: ps.map (paramObjOf 2)) := by
    rw [show fuel + 4 = (fuel + 3) + 1 from rfl, handle_succ]
    simp only [handleStep, classNode, halloc, c1Module, registerName, hf, List.length_cons,
      List.length_nil, Nat.zero_add, if_true, if_neg hf]
    simp only [List.singleton_append, List.getElem?_cons_zero, Obj.names?, odSet, Obj.setNames,
      List.set_cons_zero, if_false, Bool.false_eq_true]
    rw [show ([Obj.module { parent := .pynone, name := "m", names := [(f, 1)], declarations := [], imports := [] },
        Obj.klass { parent := .obj 0, name := f, names := [], superclass := none, ctor := none, attributes := [] }] : Heap)
        = c1ClassHeap f from rfl]
    simp only [declLoop]
    rw [hproto]
    have hp2 : (c1ProtoHeap f ps)[2]? = some (.ctor { parent := .obj 1, names := paramTable [] 3 ps, parameters := List.range' 3 ps.length, statements := none }) := by
      simp [c1ProtoHeap, c1ClassHeap]
    have hp1 : (c1ProtoHeap f ps)[1]? = some (.klass { parent := .obj 0, name := f, names := [], superclass := none, ctor := none, attributes := [] }) := by
      simp [c1ProtoHeap, c1ClassHeap]
    have haddc : addToContext (c1ProtoHeap f ps) (.decl 2) (.obj 1)
        = .ok ((c1ProtoHeap f ps).set 1 (.klass { parent := .obj 0, name := f, names := [], superclass := none, ctor := some 2, attributes := [] })) := by
      simp [addToContext, hp2, Class.add_constructor, hp1]
    simp only [haddc, declLoop]
    simp [c1ProtoHeap, c1ClassHeap, List.set]
  have hfull : handle (fuel + 5) (c1Root f ps qs rs) (.obj 0) [c1Module]
      = (.ok .none_, c1FinalHeap f ps qs rs) := by
    rw [show fuel + 5 = (fuel + 4) + 1 from rfl, handle_succ]
    simp only [handleStep, c1Root, declLoop]
    rw [hclass]
    have hd1 : ([Obj.module { parent := .pynone, name := "m", names := [(f, 1)], declarations := [], imports := [] },
        Obj.klass { parent := .obj 0, name := f, names := [], superclass := none, ctor := some 2, attributes := [] }]
          ++ Obj.ctor { parent := .obj 1, names := paramTable [] 3 ps, parameters := List.range' 3 ps.length, statements := none }
          :: ps.map (paramObjOf 2))[1]?
        = some (.klass { parent := .obj 0, name := f, names := [], superclass := none, ctor := some 2, attributes := [] }) := by
      simp
    have hd0 : ([Obj.module { parent := .pynone, name := "m", names := [(f, 1)], declarations := [], imports := [] },
        Obj.klass { parent := .obj 0, name := f, names := [], superclass := none, ctor := some 2, attributes := [] }]
          ++ Obj.ctor { parent := .obj 1, names := paramTable [] 3 ps, parameters := List.range' 3 ps.length, statements := none }
          :: ps.map (paramObjOf 2))[0]?
        = some (.module { parent := .pynone, name := "m", names := [(f, 1)], declarations := [], imports := [] }) := by
      simp
    have haddd : addToContext
        ([Obj.module { parent := .pynone, name := "m", names := [(f, 1)], declarations := [], imports := [] },
          Obj.klass { parent := .obj 0, name := f, names := [], superclass := none, ctor := some 2, attributes := [] }]
            ++ Obj.ctor { parent := .obj 1, names := paramTable [] 3 ps, parameters := List.range' 3 ps.length, statements := none }
            :: ps.map (paramObjOf 2)) (.decl 1) (.obj 0)
        = .ok (c1MergedHeap f ps) := by
      simp [addToContext, hd1, ctxAddDeclaration, hd0, Obj.name?, odSet, c1MergedHeap, List.set]
    simp only [haddd, declLoop]
    rw [hdefn]
    simp
  refine ⟨hproto, hdefn, hfull, ?_⟩
  simp [c1FinalHeap, List.countP_append, List.countP_cons, Obj.isCtor, paramObjOf]

/-- Witness for `c1_constructor_prototype_merge` at `Foo.Foo(a)` declared
in-class and defined out-of-line as `Foo::Foo(b) { return r; }`. -/
theorem c1_constructor_prototype_merge_witness :
    ("Foo" : String) ≠ ""
    ∧ pySplit ("class " ++ "Foo") = ["class", "Foo"]
    ∧ (c1FinalHeap "Foo" ["a"] ["b"] ["r"]).countP Obj.isCtor = 1 :=
  ⟨by decide, by decide,
   (c1_constructor_prototype_merge 0 "Foo" ["a"] ["b"] ["r"] (by decide) (by decide)).2.2.2⟩

end Seasnake
